import Mathlib

/-!
# Verification of uftrace `src/utils/data-file.c`

Shallow embedding of the data-ingestion layer of uftrace (the fork
`abenbachir/uftrace`): header decoding with byte/bit-order detection,
the legacy binary `task` file reader, the text `task.txt` reader and
writer, and the `open_data_file` orchestration, together with theorems
settling the frozen claims C1–C10.

Machine integers are modelled as `Nat` with explicit `% 2^w` where
overflow matters; fallible code returns `Option`/`Except`; the process
aborting `pr_err`/`assert` paths are modelled as an explicit error
constructor.
-/

namespace DataFile

/-! ## Constants

Constants declared in headers outside `src/` are modelled from the spec;
their exact numeric values are irrelevant to every claim (only
distinctness / bit positions matter) and theorems quantify over the
values wherever the claim does. -/

/-- `NSEC_PER_SEC`: nanoseconds per second, fixed by the spec's
`seconds.9-digit-nanoseconds` timestamp rendering. -/
def NSEC_PER_SEC : Nat := 1000000000

/-- Modelled from the spec: the record magic constant (declared outside
`src/`); a short tag that fits the 3-bit field at bits [3:5] of the
second record word. -/
def RECORD_MAGIC : Nat := 5

/-- Modelled from the spec: the legacy `task` file envelope magic
constant `FTRACE_MSG_MAGIC` (declared outside `src/`). -/
def FTRACE_MSG_MAGIC : Nat := 0xface

/-- Modelled from the spec: envelope tag for SESSION messages (value
declared outside `src/`; only distinctness matters). -/
def FTRACE_MSG_SESSION : Nat := 6

/-- Modelled from the spec: envelope tag for TID (new task) messages. -/
def FTRACE_MSG_TID : Nat := 3

/-- Modelled from the spec: envelope tag for FORK_END messages. -/
def FTRACE_MSG_FORK_END : Nat := 5

/-- Modelled from the spec: the current default data directory name
`UFTRACE_DIR_NAME` (declared outside `src/`). -/
def UFTRACE_DIR_NAME : String := "uftrace.data"

/-- Modelled from the spec: the fixed legacy default data directory name
`UFTRACE_DIR_OLD_NAME` (declared outside `src/`). -/
def UFTRACE_DIR_OLD_NAME : String := "ftrace.dir"

/-- Modelled from the spec: feature-mask bit "session-info-present"
(`TASK_SESSION`, bit position declared outside `src/`). -/
def TASK_SESSION : Nat := 2

/-- Modelled from the spec: feature-mask bit "relative-symbol-addresses"
(`SYM_REL_ADDR`). -/
def SYM_REL_ADDR : Nat := 32

/-- Modelled from the spec: feature-mask bit "argument-capture". -/
def ARGUMENT : Nat := 8

/-- Modelled from the spec: feature-mask bit "return-value-capture". -/
def RETVAL : Nat := 16

/-- Modelled from the spec: feature-mask bit "explicit-max-stack". -/
def MAX_STACK : Nat := 64

/-- Modelled from the spec: feature-mask bit "kernel-trace-present". -/
def KERNEL : Nat := 4

/-- Modelled from the spec: the fixed built-in default maximum stack
depth `MCOUNT_RSTACK_MAX` (declared outside `src/`). -/
def MCOUNT_RSTACK_MAX : Nat := 65535

/-- Modelled from the spec: minimum supported file version
`UFTRACE_FILE_VERSION_MIN` (declared outside `src/`; the claims only
use that the range is inclusive). -/
def UFTRACE_FILE_VERSION_MIN : Nat := 2

/-- Modelled from the spec: current (maximum) supported file version
`UFTRACE_FILE_VERSION`. -/
def UFTRACE_FILE_VERSION : Nat := 4

/-! ## Byte swapping

`bswap_16/32/64` are the glibc shift-and-mask byte reversals used at
`data-file.c:371-374`.  `byteRevN` is an independent rendering of "the
byte-reversed value of its on-disk representation": decompose into
little-endian bytes, reverse the byte list, recompose. -/

/-- `bswap_16` as in `<byteswap.h>`: shift-and-mask byte exchange. -/
def bswap16 (x : Nat) : Nat :=
  ((x % 2 ^ 16) / 2 ^ 8) + (x % 2 ^ 8) * 2 ^ 8

/-- `bswap_32` as in `<byteswap.h>`: shift-and-mask byte reversal. -/
def bswap32 (x : Nat) : Nat :=
  ((x % 2 ^ 32) / 2 ^ 24) +
  ((x / 2 ^ 16) % 2 ^ 8) * 2 ^ 8 +
  ((x / 2 ^ 8) % 2 ^ 8) * 2 ^ 16 +
  (x % 2 ^ 8) * 2 ^ 24

/-- `bswap_64` as in `<byteswap.h>`: shift-and-mask byte reversal. -/
def bswap64 (x : Nat) : Nat :=
  ((x % 2 ^ 64) / 2 ^ 56) +
  ((x / 2 ^ 48) % 2 ^ 8) * 2 ^ 8 +
  ((x / 2 ^ 40) % 2 ^ 8) * 2 ^ 16 +
  ((x / 2 ^ 32) % 2 ^ 8) * 2 ^ 24 +
  ((x / 2 ^ 24) % 2 ^ 8) * 2 ^ 32 +
  ((x / 2 ^ 16) % 2 ^ 8) * 2 ^ 40 +
  ((x / 2 ^ 8) % 2 ^ 8) * 2 ^ 48 +
  (x % 2 ^ 8) * 2 ^ 56

/-- The `n` little-endian bytes of `x` (least significant first). -/
def leBytes : Nat → Nat → List Nat
  | 0, _ => []
  | n + 1, x => x % 2 ^ 8 :: leBytes n (x / 2 ^ 8)

/-- Recompose a little-endian byte list into a number. -/
def ofLeBytes : List Nat → Nat
  | [] => 0
  | b :: bs => b + ofLeBytes bs * 2 ^ 8

/-- Byte-reversed value of the `n`-byte on-disk representation of `x`:
take the `n` little-endian bytes, reverse them, recompose. -/
def byteRev (n x : Nat) : Nat :=
  ofLeBytes (leBytes n x).reverse

theorem ofLeBytes_append (xs ys : List Nat) :
    ofLeBytes (xs ++ ys) = ofLeBytes xs + ofLeBytes ys * 2 ^ (8 * xs.length) := by
  induction xs with
  | nil => simp [ofLeBytes]
  | cons b bs ih =>
      have e : 8 * (bs.length + 1) = 8 * bs.length + 8 := by ring
      simp only [List.cons_append, List.append_eq, ofLeBytes, ih,
        List.length_cons, e, pow_add]
      ring

theorem div_mod_pow (x a b : Nat) (h : a ≤ b) :
    (x % 2 ^ b) / 2 ^ a = (x / 2 ^ a) % 2 ^ (b - a) := by
  have e : 2 ^ b = 2 ^ a * 2 ^ (b - a) := by
    rw [← pow_add]
    congr 1
    omega
  rw [e, Nat.mod_mul_right_div_self]

/-- `bswap_16` agrees with byte reversal of the 2-byte representation. -/
theorem bswap16_eq_byteRev (x : Nat) : bswap16 x = byteRev 2 x := by
  have h := div_mod_pow x 8 16 (by norm_num)
  simp only [bswap16, byteRev, leBytes, List.reverse_cons, List.reverse_nil,
    List.nil_append, List.cons_append, ofLeBytes]
  omega

/-- `bswap_32` agrees with byte reversal of the 4-byte representation. -/
theorem bswap32_eq_byteRev (x : Nat) : bswap32 x = byteRev 4 x := by
  have h := div_mod_pow x 24 32 (by norm_num)
  have e1 : x / 2 ^ 8 / 2 ^ 8 = x / 2 ^ 16 := by
    rw [Nat.div_div_eq_div_mul]; norm_num
  have e2 : x / 2 ^ 16 / 2 ^ 8 = x / 2 ^ 24 := by
    rw [Nat.div_div_eq_div_mul]; norm_num
  simp only [bswap32, byteRev, leBytes, List.reverse_cons, List.reverse_nil,
    List.nil_append, List.cons_append, List.append_assoc, ofLeBytes, e1, e2]
  omega

/-- `bswap_64` agrees with byte reversal of the 8-byte representation. -/
theorem bswap64_eq_byteRev (x : Nat) : bswap64 x = byteRev 8 x := by
  have h := div_mod_pow x 56 64 (by norm_num)
  have e1 : x / 2 ^ 8 / 2 ^ 8 = x / 2 ^ 16 := by
    rw [Nat.div_div_eq_div_mul]; norm_num
  have e2 : x / 2 ^ 16 / 2 ^ 8 = x / 2 ^ 24 := by
    rw [Nat.div_div_eq_div_mul]; norm_num
  have e3 : x / 2 ^ 24 / 2 ^ 8 = x / 2 ^ 32 := by
    rw [Nat.div_div_eq_div_mul]; norm_num
  have e4 : x / 2 ^ 32 / 2 ^ 8 = x / 2 ^ 40 := by
    rw [Nat.div_div_eq_div_mul]; norm_num
  have e5 : x / 2 ^ 40 / 2 ^ 8 = x / 2 ^ 48 := by
    rw [Nat.div_div_eq_div_mul]; norm_num
  have e6 : x / 2 ^ 48 / 2 ^ 8 = x / 2 ^ 56 := by
    rw [Nat.div_div_eq_div_mul]; norm_num
  simp only [bswap64, byteRev, leBytes, List.reverse_cons, List.reverse_nil,
    List.nil_append, List.cons_append, List.append_assoc, ofLeBytes,
    e1, e2, e3, e4, e5, e6]
  omega

/-! ## Header model and `check_data_order`

The run header (`struct uftrace_file_header`) carries, besides the magic
byte string, the multi-byte numeric fields normalized by
`open_data_file`.  The magic byte-string comparison is kept abstract (a
boolean of the environment) since the claims never inspect it. -/

/-- The numeric fields of the run header; `version` is a `u32`,
`endian` an `u16` endianness tag, the masks are `u64`, `max_stack` is a
`u16`. -/
structure Header where
  version : Nat
  endian : Nat
  feat_mask : Nat
  info_mask : Nat
  max_stack : Nat
deriving Repr, DecidableEq

/-- Bitfield allocation order of the consuming machine's C compiler:
LSB-first (e.g. little-endian GCC) or MSB-first. -/
inductive BitOrder
  | lsbFirst
  | msbFirst
deriving Repr, DecidableEq

/-- The running machine, as observed by `check_data_order`:
`get_elf_endian()` and the compiler's bitfield allocation order. -/
structure Machine where
  endian : Nat
  bitOrder : BitOrder
deriving Repr, DecidableEq

/-- Decode the 3-bit `magic` bitfield of `struct uftrace_record` from
the numeric value of the record's second 64-bit word, for a given
bitfield allocation order.  With LSB-first allocation the fields
`type:2, more:1, magic:3, ...` put magic at bits [3:5] (the bit range
fixed by the comment at data-file.c:297); with MSB-first allocation the
same fields are packed from the top, putting magic at bits [58:60].
Modelled from the spec: the struct declaration itself is outside
`src/`. -/
def recordMagicField : BitOrder → Nat → Nat
  | .lsbFirst, w => (w >>> 3) % 8
  | .msbFirst, w => (w >>> 58) % 8

/-- `check_data_order` (data-file.c:286-303): sets `needs_byte_swap`
iff the machine's endianness differs from the header's endianness tag,
then stores `RECORD_MAGIC << 3` into the second word of a two-word
scratch buffer, reinterprets it through the machine's physical record
layout, and sets `needs_bit_swap` iff the decoded magic field differs
from `RECORD_MAGIC`.  Returns `(needs_byte_swap, needs_bit_swap)`. -/
def check_data_order (m : Machine) (hdrEndian : Nat) : Bool × Bool :=
  let needsByteSwap := m.endian != hdrEndian
  let d1 := RECORD_MAGIC <<< 3
  let needsBitSwap := recordMagicField m.bitOrder d1 != RECORD_MAGIC
  (needsByteSwap, needsBitSwap)

/-- The header-normalization step of `open_data_file`
(data-file.c:368-375): run `check_data_order`, then byte-swap the four
multi-byte numeric fields iff `needs_byte_swap` was set.  Returns the
two flags and the normalized header. -/
def normalizeHeader (m : Machine) (hdr : Header) : (Bool × Bool) × Header :=
  let flags := check_data_order m hdr.endian
  let hdr' :=
    if flags.1 then
      { hdr with
        version := bswap32 hdr.version
        feat_mask := bswap64 hdr.feat_mask
        info_mask := bswap64 hdr.info_mask
        max_stack := bswap16 hdr.max_stack }
    else hdr
  (flags, hdr')

/-! ## Registry events

Both readers forward each decoded event immediately to the external
session/task registry; the registry interaction is modelled as the list
of calls made to it. -/

/-- One call into the external session/task registry. -/
inductive RegEvent
  | createSession (pid : Int) (time : Nat) (sid : List Char)
      (exename : List Char) (symRelAddr : Bool)
  | createTask (tid pid : Int) (time : Nat) (isFork needsSession : Bool)
  | addDlopen (sid : List Char) (time : Nat) (base : Nat)
      (libname : List Char)
deriving Repr, DecidableEq

/-! ## Legacy binary `task` file reader

The file is a byte list; `read_all(fd, buf, n)` succeeds exactly when
`n` bytes are available at the cursor.  The struct layouts
(`struct ftrace_msg`, `ftrace_msg_task`, `ftrace_msg_sess`) are
declared outside `src/`; they are modelled from the spec as
little-endian packed records: an 8-byte envelope `{magic:u16 at 0,
type:u16 at 2, len:u32 at 4}`, a 16-byte task payload `{time:u64 at 0,
pid:i32 at 8, tid:i32 at 12}`, and a 40-byte session payload
`{task at 0, sid:char[16] at 16, unused:i32 at 32, namelen:u32 at
36}`. -/

/-- `read_all` on a byte-list file: return the `n` bytes at offset
`pos` exactly when they are all present. -/
def readAll (file : List Nat) (pos n : Nat) : Option (List Nat) :=
  if pos + n ≤ file.length then some ((file.drop pos).take n) else none

/-- Little-endian `u16` at byte offset `off`. -/
def u16at (bs : List Nat) (off : Nat) : Nat :=
  ofLeBytes ((bs.drop off).take 2)

/-- Little-endian `u32` at byte offset `off`. -/
def u32at (bs : List Nat) (off : Nat) : Nat :=
  ofLeBytes ((bs.drop off).take 4)

/-- Little-endian `u64` at byte offset `off`. -/
def u64at (bs : List Nat) (off : Nat) : Nat :=
  ofLeBytes ((bs.drop off).take 8)

/-- Two's-complement `i32` at byte offset `off`. -/
def i32at (bs : List Nat) (off : Nat) : Int :=
  let v := u32at bs off
  if v < 2 ^ 31 then (v : Int) else (v : Int) - 2 ^ 32

/-- Modelled from the spec: `sizeof(struct ftrace_msg)`. -/
def sizeof_msg : Nat := 8

/-- Modelled from the spec: `sizeof(struct ftrace_msg_task)`. -/
def sizeof_tmsg : Nat := 16

/-- Modelled from the spec: `sizeof(struct ftrace_msg_sess)`. -/
def sizeof_smsg : Nat := 40

/-- Envelope `magic` field. -/
def msg_magic (bs : List Nat) : Nat := u16at bs 0

/-- Envelope `type` field. -/
def msg_type (bs : List Nat) : Nat := u16at bs 2

/-- Task payload `time` field. -/
def tmsg_time (bs : List Nat) : Nat := u64at bs 0

/-- Task payload `pid` field. -/
def tmsg_pid (bs : List Nat) : Int := i32at bs 8

/-- Task payload `tid` field. -/
def tmsg_tid (bs : List Nat) : Int := i32at bs 12

/-- Session payload `namelen` field. -/
def smsg_namelen (bs : List Nat) : Nat := u32at bs 36

/-- Session payload `sid` field: a NUL-terminated `char[16]`, taken up
to the first zero byte and viewed as characters. -/
def smsg_sid (bs : List Nat) : List Char :=
  (((bs.drop 16).take 16).takeWhile (· ≠ 0)).map Char.ofNat

/-- A C string read from raw name bytes (the name payload is written
NUL-terminated). -/
def cString (bs : List Nat) : List Char :=
  (bs.takeWhile (· ≠ 0)).map Char.ofNat

/-- Number of padding bytes the SESSION branch reads after the name
payload (data-file.c:59-61): `8 - (namelen % 8)` when `namelen` is not
a multiple of 8, nothing otherwise. -/
def sessionPad (namelen : Nat) : Nat :=
  if namelen % 8 != 0 then 8 - namelen % 8 else 0

/-- Outcome of one iteration of the `read_task_file` envelope loop:
either continue at a new cursor position, or stop with the function's
return value (`0` when the `while` condition failed, `-1` for the
`goto out` error paths). -/
inductive TaskStep
  | next (pos : Nat) (evs : List RegEvent)
  | stop (ret : Int) (evs : List RegEvent)
deriving Repr, DecidableEq

/-- One iteration of the envelope loop of `read_task_file`
(data-file.c:49-85): read an envelope (loop exit when it cannot be
fully read), reject on a bad magic, dispatch on the tag, read the
payload (and, for SESSION, the name and its alignment padding), and
forward the decoded event to the registry. -/
def taskStep (file : List Nat) (needsSession symRelAddr : Bool)
    (pos : Nat) (evs : List RegEvent) : TaskStep :=
  match readAll file pos sizeof_msg with
  | none => .stop 0 evs
  | some mb =>
    if msg_magic mb != FTRACE_MSG_MAGIC then .stop (-1) evs
    else if msg_type mb == FTRACE_MSG_SESSION then
      match readAll file (pos + sizeof_msg) sizeof_smsg with
      | none => .stop (-1) evs
      | some sb =>
        let n := smsg_namelen sb
        match readAll file (pos + sizeof_msg + sizeof_smsg) n with
        | none => .stop (-1) evs
        | some nb =>
          match (if n % 8 != 0 then
                   readAll file (pos + sizeof_msg + sizeof_smsg + n)
                     (8 - n % 8)
                 else some []) with
          | none => .stop (-1) evs
          | some _ =>
            let evs' :=
              if needsSession then
                evs ++ [.createSession (tmsg_pid sb) (tmsg_time sb)
                  (smsg_sid sb) (cString nb) symRelAddr]
              else evs
            .next (pos + sizeof_msg + sizeof_smsg + n + sessionPad n) evs'
    else if msg_type mb == FTRACE_MSG_TID then
      match readAll file (pos + sizeof_msg) sizeof_tmsg with
      | none => .stop (-1) evs
      | some tb =>
        .next (pos + sizeof_msg + sizeof_tmsg)
          (evs ++ [.createTask (tmsg_tid tb) (tmsg_pid tb) (tmsg_time tb)
            false needsSession])
    else if msg_type mb == FTRACE_MSG_FORK_END then
      match readAll file (pos + sizeof_msg) sizeof_tmsg with
      | none => .stop (-1) evs
      | some tb =>
        .next (pos + sizeof_msg + sizeof_tmsg)
          (evs ++ [.createTask (tmsg_tid tb) (tmsg_pid tb) (tmsg_time tb)
            true needsSession])
    else .stop (-1) evs

/-- The envelope loop of `read_task_file`, with explicit fuel (each
iteration consumes at least one envelope, so `file.length + 1` fuel is
always enough).  Returns `(ret, registry calls, final cursor)`. -/
def taskLoop (file : List Nat) (needsSession symRelAddr : Bool) :
    Nat → Nat → List RegEvent → Int × List RegEvent × Nat
  | 0, pos, evs => (-1, evs, pos)
  | fuel + 1, pos, evs =>
    match taskStep file needsSession symRelAddr pos evs with
    | .stop r evs' => (r, evs', pos)
    | .next pos' evs' => taskLoop file needsSession symRelAddr fuel pos' evs'

/-- `read_task_file` (data-file.c:32-91): `none` models a failed
`open` of the `task` file (return `-1`); otherwise run the envelope
loop from the start of the file. -/
def read_task_file (file : Option (List Nat))
    (needsSession symRelAddr : Bool) : Int × List RegEvent × Nat :=
  match file with
  | none => (-1, [], 0)
  | some bytes => taskLoop bytes needsSession symRelAddr (bytes.length + 1) 0 []

/-! ## `sscanf`-style parsing over character lists

Lines of `task.txt` are character lists.  The parsers below model the
exact `sscanf` formats used at data-file.c:129, 136, 146 and 170: a
literal matches exactly, a space in the format skips whitespace,
`%lu`/`%d`/`%lx` skip whitespace and read a (signed, for `%d`) number,
`%s` skips whitespace and reads a non-empty run of non-whitespace, and
`%*[^i]` reads a non-empty run of characters other than `i`. -/

/-- Whitespace as skipped by `sscanf`. -/
def isWs (c : Char) : Bool :=
  c == ' ' || c == '\t' || c == '\n' || c == '\r'

/-- Skip leading whitespace. -/
def skipWs (cs : List Char) : List Char := cs.dropWhile isWs

/-- Match a literal, returning the remainder. -/
def expects : List Char → List Char → Option (List Char)
  | [], cs => some cs
  | _ :: _, [] => none
  | p :: ps, c :: cs => if p == c then expects ps cs else none

/-- Accumulate decimal digits. -/
def parseNatAux : List Char → Nat → Nat × List Char
  | [], acc => (acc, [])
  | c :: cs, acc =>
    if c.isDigit then parseNatAux cs (acc * 10 + (c.toNat - 48))
    else (acc, c :: cs)

/-- Read a non-empty run of decimal digits. -/
def parseNat (cs : List Char) : Option (Nat × List Char) :=
  match cs with
  | [] => none
  | c :: _ => if c.isDigit then some (parseNatAux cs 0) else none

/-- `%d`: skip whitespace, optional minus sign, decimal digits. -/
def parseInt (cs : List Char) : Option (Int × List Char) :=
  match skipWs cs with
  | '-' :: rest => (parseNat rest).map fun p => (-(p.1 : Int), p.2)
  | rest => (parseNat rest).map fun p => ((p.1 : Int), p.2)

/-- Value of a hexadecimal digit. -/
def hexVal (c : Char) : Nat :=
  if c.isDigit then c.toNat - 48
  else if 'a' ≤ c && c ≤ 'f' then c.toNat - 87
  else c.toNat - 55

/-- Hexadecimal digit test. -/
def isHexDigit (c : Char) : Bool :=
  c.isDigit || ('a' ≤ c && c ≤ 'f') || ('A' ≤ c && c ≤ 'F')

/-- Accumulate hexadecimal digits. -/
def parseHexAux : List Char → Nat → Nat × List Char
  | [], acc => (acc, [])
  | c :: cs, acc =>
    if isHexDigit c then parseHexAux cs (acc * 16 + hexVal c)
    else (acc, c :: cs)

/-- `%lx`: skip whitespace, then a non-empty run of hex digits. -/
def parseHex (cs : List Char) : Option (Nat × List Char) :=
  match skipWs cs with
  | [] => none
  | c :: rest =>
    if isHexDigit c then some (parseHexAux (c :: rest) 0) else none

/-- `%s`: skip whitespace, then a non-empty run of non-whitespace. -/
def parseTok (cs : List Char) : Option (List Char × List Char) :=
  let cs := skipWs cs
  let t := cs.takeWhile (fun c => !isWs c)
  if t.isEmpty then none else some (t, cs.drop t.length)

/-- `%*[^i]`: a non-empty run of characters other than `i`,
assignment-suppressed. -/
def skipNonI (cs : List Char) : Option (List Char) :=
  let t := cs.takeWhile (· ≠ 'i')
  if t.isEmpty then none else some (cs.drop t.length)

/-- `sscanf(line + 5, "timestamp=%lu.%lu tid=%d pid=%d", ...)`
(data-file.c:129). -/
def parseTaskLine (cs : List Char) : Option (Nat × Nat × Int × Int) := do
  let cs ← expects "timestamp=".toList cs
  let (sec, cs) ← parseNat (skipWs cs)
  let cs ← expects ['.'] cs
  let (nsec, cs) ← parseNat (skipWs cs)
  let cs ← expects "tid=".toList (skipWs cs)
  let (tid, cs) ← parseInt cs
  let cs ← expects "pid=".toList (skipWs cs)
  let (pid, _) ← parseInt cs
  pure (sec, nsec, tid, pid)

/-- `sscanf(line + 5, "timestamp=%lu.%lu pid=%d ppid=%d", ...)`
(data-file.c:136); the first number is stored in the task slot `tid`,
the second in `pid`. -/
def parseForkLine (cs : List Char) : Option (Nat × Nat × Int × Int) := do
  let cs ← expects "timestamp=".toList cs
  let (sec, cs) ← parseNat (skipWs cs)
  let cs ← expects ['.'] cs
  let (nsec, cs) ← parseNat (skipWs cs)
  let cs ← expects "pid=".toList (skipWs cs)
  let (pid, cs) ← parseInt cs
  let cs ← expects "ppid=".toList (skipWs cs)
  let (ppid, _) ← parseInt cs
  pure (sec, nsec, pid, ppid)

/-- `sscanf(line + 5, "timestamp=%lu.%lu %*[^i]id=%d sid=%s", ...)`
(data-file.c:146). -/
def parseSessLine (cs : List Char) : Option (Nat × Nat × Int × List Char) := do
  let cs ← expects "timestamp=".toList cs
  let (sec, cs) ← parseNat (skipWs cs)
  let cs ← expects ['.'] cs
  let (nsec, cs) ← parseNat (skipWs cs)
  let cs ← skipNonI (skipWs cs)
  let cs ← expects "id=".toList cs
  let (pid, cs) ← parseInt cs
  let cs ← expects "sid=".toList (skipWs cs)
  let (sid, _) ← parseTok cs
  pure (sec, nsec, pid, sid)

/-- `sscanf(line + 5, "timestamp=%lu.%lu tid=%d sid=%s base=%lx", ...)`
(data-file.c:170). -/
def parseDlopLine (cs : List Char) :
    Option (Nat × Nat × Int × List Char × Nat) := do
  let cs ← expects "timestamp=".toList cs
  let (sec, cs) ← parseNat (skipWs cs)
  let cs ← expects ['.'] cs
  let (nsec, cs) ← parseNat (skipWs cs)
  let cs ← expects "tid=".toList (skipWs cs)
  let (tid, cs) ← parseInt cs
  let cs ← expects "sid=".toList (skipWs cs)
  let (sid, cs) ← parseTok cs
  let cs ← expects "base=".toList (skipWs cs)
  let (base, _) ← parseHex cs
  pure (sec, nsec, tid, sid, base)

/-- `strstr(line, marker)`: the suffix of `line` starting at the first
occurrence of `marker`, if any. -/
def findSuffix (pat : List Char) : List Char → Option (List Char)
  | [] => if pat.isEmpty then some [] else none
  | c :: cs =>
    if (expects pat (c :: cs)).isSome then some (c :: cs)
    else findSuffix pat cs

/-- `strrchr(cs, '"')` followed by truncation: keep everything before
the last double quote, or the whole list if there is none
(data-file.c:154-156). -/
def truncAtLastQuote (cs : List Char) : List Char :=
  if cs.contains '\"' then ((cs.reverse.dropWhile (· ≠ '\"')).drop 1).reverse
  else cs

/-- The quoted-name extraction of data-file.c:150-156 / 174-180: find
the marker (`exename=` or `libname=`) anywhere in the line, skip it and
the opening double quote, and cut at the last double quote; `none` when
the marker is absent (the `pr_err_ns` path). -/
def extractName (marker line : List Char) : Option (List Char) :=
  match findSuffix marker line with
  | none => none
  | some suf => some (truncAtLastQuote (suf.drop (marker.length + 1)))

/-! ## The `task.txt` reader -/

/-- The local scan variables of `read_task_txt_file`
(data-file.c:112-116): `sec`/`nsec` and the fields of `tmsg`, `smsg`
and `dlop` that `sscanf` fills.  They persist across loop iterations,
so a line whose `sscanf` fails reuses the previous (or initial,
uninitialized) contents. -/
structure ScanVars where
  sec : Nat
  nsec : Nat
  tmsgTid : Int
  tmsgPid : Int
  sessPid : Int
  sessSid : List Char
  dlopTid : Int
  dlopSid : List Char
  dlopBase : Nat
deriving Repr, DecidableEq

/-- State of the text reader: scan variables, the session ids created
so far in the external registry, and the registry calls made. -/
structure TxtState where
  vars : ScanVars
  sids : List (List Char)
  evs : List RegEvent
deriving Repr, DecidableEq

/-- Process-aborting paths inside `read_task_txt_file`:
`pr_err_ns("invalid task.txt format")` (data-file.c:152/176) and the
failed `assert(s)` (data-file.c:187). -/
inductive TxtAbort
  | badFormat
  | assertFail
deriving Repr, DecidableEq

/-- One iteration of the `getline` loop of `read_task_txt_file`
(data-file.c:127-191): dispatch on the 4-character tag, scan the line,
and forward the event to the registry; unrecognized tags are ignored. -/
def processLine (needsSession symRelAddr : Bool) (st : TxtState)
    (line : List Char) : Except TxtAbort TxtState :=
  if (expects "TASK".toList line).isSome then
    let v := st.vars
    let v' :=
      match parseTaskLine (line.drop 5) with
      | some (s, n, t, p) =>
        { v with sec := s, nsec := n, tmsgTid := t, tmsgPid := p }
      | none => v
    .ok { st with
          vars := v'
          evs := st.evs ++ [.createTask v'.tmsgTid v'.tmsgPid
            (v'.sec * NSEC_PER_SEC + v'.nsec) false needsSession] }
  else if (expects "FORK".toList line).isSome then
    let v := st.vars
    let v' :=
      match parseForkLine (line.drop 5) with
      | some (s, n, p, pp) =>
        { v with sec := s, nsec := n, tmsgTid := p, tmsgPid := pp }
      | none => v
    .ok { st with
          vars := v'
          evs := st.evs ++ [.createTask v'.tmsgTid v'.tmsgPid
            (v'.sec * NSEC_PER_SEC + v'.nsec) true needsSession] }
  else if (expects "SESS".toList line).isSome then
    if !needsSession then .ok st
    else
      let v := st.vars
      let v' :=
        match parseSessLine (line.drop 5) with
        | some (s, n, p, sid) =>
          { v with sec := s, nsec := n, sessPid := p, sessSid := sid }
        | none => v
      match extractName "exename=".toList line with
      | none => .error .badFormat
      | some nm =>
        .ok { vars := v'
              sids := st.sids ++ [v'.sessSid]
              evs := st.evs ++ [.createSession v'.sessPid
                (v'.sec * NSEC_PER_SEC + v'.nsec) v'.sessSid nm
                symRelAddr] }
  else if (expects "DLOP".toList line).isSome then
    if !needsSession then .ok st
    else
      let v := st.vars
      let v' :=
        match parseDlopLine (line.drop 5) with
        | some (s, n, t, sid, b) =>
          { v with sec := s, nsec := n, dlopTid := t, dlopSid := sid,
                   dlopBase := b }
        | none => v
      match extractName "libname=".toList line with
      | none => .error .badFormat
      | some nm =>
        if st.sids.contains v'.dlopSid then
          .ok { st with
                vars := v'
                evs := st.evs ++ [.addDlopen v'.dlopSid
                  (v'.sec * NSEC_PER_SEC + v'.nsec) v'.dlopBase nm] }
        else .error .assertFail
  else .ok st

/-- The `getline` loop over all lines of the file. -/
def processLines (needsSession symRelAddr : Bool) :
    TxtState → List (List Char) → Except TxtAbort TxtState
  | st, [] => .ok st
  | st, l :: ls =>
    match processLine needsSession symRelAddr st l with
    | .error a => .error a
    | .ok st' => processLines needsSession symRelAddr st' ls

/-- `read_task_txt_file` (data-file.c:105-196): `none` models a failed
`fopen` (return `-errno` with `errnoVal` the positive `errno`);
otherwise process every line and return `0`. -/
def read_task_txt_file (file : Option (List (List Char)))
    (errnoVal : Nat) (needsSession symRelAddr : Bool) (init : ScanVars) :
    Except TxtAbort (Int × TxtState) :=
  match file with
  | none => .ok (-(errnoVal : Int), ⟨init, [], []⟩)
  | some lines =>
    match processLines needsSession symRelAddr ⟨init, [], []⟩ lines with
    | .error a => .error a
    | .ok st => .ok (0, st)

/-! ## The `task.txt` writers -/

/-- Decimal digits of `n`, most significant first, by repeated
division (`fuel`-structured so that the kernel can reduce it). -/
def natCharsAux : Nat → Nat → List Char
  | 0, _ => []
  | fuel + 1, n =>
    if n = 0 then []
    else natCharsAux fuel (n / 10) ++ [Char.ofNat (n % 10 + 48)]

/-- `printf("%u", n)`-style decimal rendering. -/
def natToChars (n : Nat) : List Char :=
  if n = 0 then ['0'] else natCharsAux (n + 1) n

/-- `printf("%d", i)`-style decimal rendering. -/
def intToChars (i : Int) : List Char :=
  if i < 0 then '-' :: natToChars i.natAbs else natToChars i.natAbs

/-- Zero-pad a digit string to width 9 (`%09` in the format). -/
def pad9 (ds : List Char) : List Char :=
  List.replicate (9 - ds.length) '0' ++ ds

/-- `snprint_timestamp` (data-file.c:198-202): seconds, a dot, then
the nanosecond remainder zero-padded to 9 digits. -/
def snprint_timestamp (timestamp : Nat) : List Char :=
  natToChars (timestamp / NSEC_PER_SEC) ++
    '.' :: pad9 (natToChars (timestamp % NSEC_PER_SEC))

/-- The line appended by `write_task_info` (data-file.c:204-222). -/
def write_task_info_line (tmsgTime : Nat) (tmsgTid tmsgPid : Int) :
    List Char :=
  "TASK timestamp=".toList ++ snprint_timestamp tmsgTime ++
    " tid=".toList ++ intToChars tmsgTid ++
    " pid=".toList ++ intToChars tmsgPid ++ ['\n']

/-! ## `open_data_file`

The orchestration (data-file.c:308-420) is modelled against an
environment describing the outcomes of the external operations it
performs: opening `dir/info`, reading the fixed-size header, the magic
byte-string comparison, `read_ftrace_info`, and the contents of the
`task.txt` / `task` files of each directory. -/

/-- Kind of a failed `fopen(dir/info)`. -/
inductive OpenErrKind
  | enoent
  | other
deriving Repr, DecidableEq

/-- The caller's configuration, as far as `open_data_file` reads and
writes it. -/
structure Opts where
  dirname : String
  exename : Option String
deriving Repr, DecidableEq

/-- Environment of one `open_data_file` call. -/
structure Env where
  /-- Result of `fopen("%s/info", dir)`: `none` is success. -/
  infoOpen : String → Option OpenErrKind
  /-- Whether the `fread` of the fixed-size header succeeds. -/
  headerReadOk : String → Bool
  /-- Whether the header's magic byte string matches
  `UFTRACE_MAGIC_STR`. -/
  magicOk : String → Bool
  /-- The numeric header fields as stored on disk. -/
  rawHeader : String → Header
  /-- Whether `read_ftrace_info` succeeds. -/
  infoReadOk : String → Bool
  /-- `handle->info.exename` loaded by `read_ftrace_info`. -/
  infoExename : String
  /-- Lines of `dir/task.txt`, `none` when `fopen` fails. -/
  txtLines : String → Option (List (List Char))
  /-- Bytes of `dir/task`, `none` when `open` fails. -/
  taskBytes : String → Option (List Nat)
  /-- `errno` of the failed `task.txt` `fopen` (positive). -/
  errnoTxt : Nat
  /-- Initial (uninitialized) contents of the text reader's scan
  variables. -/
  initVars : ScanVars
  /-- The running machine. -/
  machine : Machine

/-- The `pr_err` process-aborting exits of `open_data_file`, plus the
aborts propagated out of the text reader. -/
inductive Fatal
  | recordHint
  | openOther
  | headerRead
  | badMagic
  | badVersion
  | infoRead
  | txtAbort (a : TxtAbort)
deriving Repr, DecidableEq

/-- Observable state of a successful `open_data_file`. -/
structure OpenedState where
  /-- The active data directory: `handle->dirname`, which
  `open_data_file` also propagates to `opts->dirname`. -/
  dirname : String
  /-- `opts->exename` after the call. -/
  optsExename : Option String
  /-- `handle->needs_byte_swap`. -/
  needsByteSwap : Bool
  /-- `handle->needs_bit_swap`. -/
  needsBitSwap : Bool
  /-- The header fields right after the byte-swap normalization step
  (data-file.c:375). -/
  hdrSwapped : Header
  /-- The header fields at return (`max_stack` may have been replaced
  by the built-in default). -/
  hdr : Header
  /-- All registry calls made while loading session/task data. -/
  events : List RegEvent
  /-- Whether the `pr_warn("invalid task file")` warning was
  emitted. -/
  warned : Bool
  /-- Whether `read_task_txt_file` was invoked. -/
  attemptedTxt : Bool
  /-- Whether `read_task_file` was invoked. -/
  attemptedLegacy : Bool
deriving Repr, DecidableEq

/-- Result of `open_data_file`: a `pr_err` abort, the `-1` return of
the not-found-without-exename path, or a successful open. -/
inductive OpenResult
  | fatal (f : Fatal)
  | failed
  | opened (s : OpenedState)
deriving Repr, DecidableEq

/-- Result of the directory-resolution loop. -/
inductive DirRes
  | ok (activeDir : String) (renamed : Bool)
  | fatal (f : Fatal)
  | failed
deriving Repr, DecidableEq

/-- The `retry:` loop of `open_data_file` (data-file.c:317-348): open
`dir/info`; on `ENOENT` with the configured directory equal to the
current default, retry exactly once with the fixed legacy default
directory; any non-`ENOENT` failure is fatal; a final `ENOENT` is
fatal when `opts->exename` is set and returns `-1` otherwise. -/
def resolveDir (env : Env) (opts : Opts) : DirRes :=
  match env.infoOpen opts.dirname with
  | none => .ok opts.dirname false
  | some .enoent =>
    if opts.dirname = UFTRACE_DIR_NAME then
      match env.infoOpen UFTRACE_DIR_OLD_NAME with
      | none => .ok UFTRACE_DIR_OLD_NAME true
      | some .enoent => if opts.exename.isSome then .fatal .recordHint else .failed
      | some .other => .fatal .openOther
    else if opts.exename.isSome then .fatal .recordHint else .failed
  | some .other => .fatal .openOther

/-- The session/task loading stage (data-file.c:389-400): try
`read_task_txt_file`, and if and only if it fails try
`read_task_file`; warn when both fail.  Returns the registry calls, the
warning flag, and which readers were attempted. -/
def sessionStage (env : Env) (dir : String) (symRel : Bool) :
    Except TxtAbort (List RegEvent × Bool × Bool × Bool) :=
  match read_task_txt_file (env.txtLines dir) env.errnoTxt true symRel
      env.initVars with
  | .error a => .error a
  | .ok (r, st) =>
    if r < 0 then
      let legacy := read_task_file (env.taskBytes dir) true symRel
      if legacy.1 < 0 then .ok (st.evs ++ legacy.2.1, true, true, true)
      else .ok (st.evs ++ legacy.2.1, false, true, true)
    else .ok (st.evs, false, true, false)

/-- `open_data_file` (data-file.c:308-420): directory resolution,
header read and validation, byte/bit-order detection and
normalization, version-range enforcement, optional-info loading,
feature-gated session/task loading, and the max-stack default. -/
def open_data_file (opts : Opts) (env : Env) : OpenResult :=
  match resolveDir env opts with
  | .fatal f => .fatal f
  | .failed => .failed
  | .ok dir _ =>
    if !env.headerReadOk dir then .fatal .headerRead
    else if !env.magicOk dir then .fatal .badMagic
    else
      let hdr0 := env.rawHeader dir
      let norm := normalizeHeader env.machine hdr0
      let hdr1 := norm.2
      if hdr1.version < UFTRACE_FILE_VERSION_MIN ||
          hdr1.version > UFTRACE_FILE_VERSION then .fatal .badVersion
      else if !env.infoReadOk dir then .fatal .infoRead
      else
        let optsExe :=
          match opts.exename with
          | none => some env.infoExename
          | some e => some e
        let sessRes :=
          if hdr1.feat_mask &&& TASK_SESSION != 0 then
            sessionStage env dir (hdr1.feat_mask &&& SYM_REL_ADDR != 0)
          else .ok ([], false, false, false)
        match sessRes with
        | .error a => .fatal (.txtAbort a)
        | .ok (evs, warned, aTxt, aLeg) =>
          let hdr2 :=
            if hdr1.feat_mask &&& MAX_STACK == 0 then
              { hdr1 with max_stack := MCOUNT_RSTACK_MAX }
            else hdr1
          .opened
            { dirname := dir
              optsExename := optsExe
              needsByteSwap := norm.1.1
              needsBitSwap := norm.1.2
              hdrSwapped := hdr1
              hdr := hdr2
              events := evs
              warned := warned
              attemptedTxt := aTxt
              attemptedLegacy := aLeg }

/-! ## Helper lemmas -/

theorem normalizeHeader_spec (m : Machine) (hdr : Header) :
    (normalizeHeader m hdr).1.1 = (m.endian != hdr.endian) ∧
    (normalizeHeader m hdr).1.2 =
      (recordMagicField m.bitOrder (RECORD_MAGIC <<< 3) != RECORD_MAGIC) ∧
    (m.endian ≠ hdr.endian →
      (normalizeHeader m hdr).2 =
        ⟨bswap32 hdr.version, hdr.endian, bswap64 hdr.feat_mask,
          bswap64 hdr.info_mask, bswap16 hdr.max_stack⟩) ∧
    (m.endian = hdr.endian → (normalizeHeader m hdr).2 = hdr) := by
  refine ⟨rfl, rfl, ?_, ?_⟩
  · intro hne
    simp only [normalizeHeader, check_data_order, bne_iff_ne, ne_eq, hne,
      not_false_eq_true, if_true]
  · intro he
    simp [normalizeHeader, check_data_order, he]

/-- Inversion of a successful `open_data_file`: how every field of the
resulting state is computed. -/
theorem opened_inv (opts : Opts) (env : Env) (s : OpenedState)
    (h : open_data_file opts env = .opened s) :
    ∃ dir renamed, resolveDir env opts = .ok dir renamed ∧
      env.headerReadOk dir = true ∧
      env.magicOk dir = true ∧
      s.dirname = dir ∧
      (let norm := normalizeHeader env.machine (env.rawHeader dir)
       s.needsByteSwap = norm.1.1 ∧
       s.needsBitSwap = norm.1.2 ∧
       s.hdrSwapped = norm.2 ∧
       ¬(norm.2.version < UFTRACE_FILE_VERSION_MIN ∨
         UFTRACE_FILE_VERSION < norm.2.version) ∧
       env.infoReadOk dir = true ∧
       s.optsExename = (match opts.exename with
         | none => some env.infoExename
         | some e => some e) ∧
       (if norm.2.feat_mask &&& TASK_SESSION != 0 then
          sessionStage env dir (norm.2.feat_mask &&& SYM_REL_ADDR != 0)
        else Except.ok ([], false, false, false)) =
         .ok (s.events, s.warned, s.attemptedTxt, s.attemptedLegacy) ∧
       s.hdr = (if norm.2.feat_mask &&& MAX_STACK == 0 then
          { norm.2 with max_stack := MCOUNT_RSTACK_MAX }
        else norm.2)) := by
  simp only [open_data_file] at h
  split at h
  case _ f heq => exact absurd h (by simp)
  case _ heq => exact absurd h (by simp)
  case _ dir renamed heq =>
    refine ⟨dir, renamed, heq, ?_⟩
    split at h
    case isTrue => exact absurd h (by simp)
    case isFalse h1 =>
      split at h
      case isTrue => exact absurd h (by simp)
      case isFalse h2 =>
        split at h
        case isTrue => exact absurd h (by simp)
        case isFalse h3 =>
          split at h
          case isTrue => exact absurd h (by simp)
          case isFalse h4 =>
            split at h
            case _ a heq2 => exact absurd h (by simp)
            case _ evs warned aTxt aLeg heq2 =>
              cases h
              simp only [Bool.not_eq_true] at h1 h2 h4
              refine ⟨by simpa using h1, by simpa using h2, rfl, rfl, rfl,
                rfl, by simpa using h3, by simpa using h4, rfl, heq2, rfl⟩

/-! ## Claim theorems -/

/-- C1: for every run header whose recorded endianness tag differs
from the running machine's endianness, `open_data_file` sets the
handle's `needs_byte_swap` flag and each multi-byte numeric header
field (version, feature mask, info mask, max-stack) afterwards equals
the byte-reversed value of its on-disk representation; when the tags
agree, the flag is not set and the fields are unchanged. -/
theorem open_data_file_byte_swap (opts : Opts) (env : Env)
    (s : OpenedState) (h : open_data_file opts env = .opened s) :
    let hdr0 := env.rawHeader s.dirname
    (s.needsByteSwap = (env.machine.endian != hdr0.endian)) ∧
    (env.machine.endian ≠ hdr0.endian →
      s.needsByteSwap = true ∧
      s.hdrSwapped.version = byteRev 4 hdr0.version ∧
      s.hdrSwapped.feat_mask = byteRev 8 hdr0.feat_mask ∧
      s.hdrSwapped.info_mask = byteRev 8 hdr0.info_mask ∧
      s.hdrSwapped.max_stack = byteRev 2 hdr0.max_stack) ∧
    (env.machine.endian = hdr0.endian →
      s.needsByteSwap = false ∧ s.hdrSwapped = hdr0) := by
  intro hdr0
  obtain ⟨dir, renamed, hres, hhr, hmg, hdir, hbs, hbit, hsw, -⟩ :=
    opened_inv opts env s h
  obtain ⟨hs1, -, hs3, hs4⟩ := normalizeHeader_spec env.machine (env.rawHeader dir)
  have hdr0eq : hdr0 = env.rawHeader dir := by
    show env.rawHeader s.dirname = env.rawHeader dir
    rw [hdir]
  refine ⟨?_, ?_, ?_⟩
  · rw [hbs, hs1, hdr0eq]
  · intro hne
    rw [hdr0eq] at hne
    have := hs3 hne
    rw [hsw, this, hdr0eq]
    refine ⟨?_, ?_, ?_, ?_, ?_⟩
    · rw [hbs, hs1]; simp [bne_iff_ne, hne]
    · exact bswap32_eq_byteRev _
    · exact bswap64_eq_byteRev _
    · exact bswap64_eq_byteRev _
    · exact bswap16_eq_byteRev _
  · intro he
    rw [hdr0eq] at he
    refine ⟨?_, ?_⟩
    · rw [hbs, hs1]; simp [bne_iff_ne, he]
    · rw [hsw, hs4 he, hdr0eq]

/-- Concrete options for the C1 witness. -/
def optsC1 : Opts := ⟨"d", none⟩

/-- Concrete environment for the C1 witness: machine endianness 1,
header endianness tag 2, on-disk version `bswap32 2`. -/
def envC1 : Env :=
  { infoOpen := fun _ => none
    headerReadOk := fun _ => true
    magicOk := fun _ => true
    rawHeader := fun _ => ⟨bswap32 2, 2, 0, 0, 0⟩
    infoReadOk := fun _ => true
    infoExename := "a.out"
    txtLines := fun _ => none
    taskBytes := fun _ => none
    errnoTxt := 2
    initVars := ⟨0, 0, 0, 0, 0, [], 0, [], 0⟩
    machine := ⟨1, .lsbFirst⟩ }

/-- The state `open_data_file optsC1 envC1` opens. -/
def stateC1 : OpenedState :=
  { dirname := "d"
    optsExename := some "a.out"
    needsByteSwap := true
    needsBitSwap := false
    hdrSwapped := ⟨2, 2, 0, 0, 0⟩
    hdr := ⟨2, 2, 0, 0, MCOUNT_RSTACK_MAX⟩
    events := []
    warned := false
    attemptedTxt := false
    attemptedLegacy := false }

/-- Witness for C1: the theorem applied to a concrete mismatched-endian
run. -/
theorem open_data_file_byte_swap_witness :
    open_data_file optsC1 envC1 = .opened stateC1 ∧
      (let hdr0 := envC1.rawHeader stateC1.dirname
       (stateC1.needsByteSwap = (envC1.machine.endian != hdr0.endian)) ∧
       (envC1.machine.endian ≠ hdr0.endian →
         stateC1.needsByteSwap = true ∧
         stateC1.hdrSwapped.version = byteRev 4 hdr0.version ∧
         stateC1.hdrSwapped.feat_mask = byteRev 8 hdr0.feat_mask ∧
         stateC1.hdrSwapped.info_mask = byteRev 8 hdr0.info_mask ∧
         stateC1.hdrSwapped.max_stack = byteRev 2 hdr0.max_stack) ∧
       (envC1.machine.endian = hdr0.endian →
         stateC1.needsByteSwap = false ∧ stateC1.hdrSwapped = hdr0)) :=
  ⟨by decide, open_data_file_byte_swap optsC1 envC1 stateC1 (by decide)⟩

/-- C2: bitfield-order detection writes `RECORD_MAGIC` left-shifted
into the known bit range of the scratch second word, decodes it back
through the machine's physical record layout, and sets `needs_bit_swap`
exactly when the decoded magic differs from `RECORD_MAGIC`; for the
native (LSB-first) layout the flag stays unset, for the opposite
(MSB-first) layout it is set, and `open_data_file` caches the decision
on the handle. -/
theorem check_data_order_bit_swap (m : Machine) (hdrEndian : Nat)
    (opts : Opts) (env : Env) (s : OpenedState)
    (h : open_data_file opts env = .opened s) :
    (check_data_order m hdrEndian).2 =
      (recordMagicField m.bitOrder (RECORD_MAGIC <<< 3) != RECORD_MAGIC) ∧
    (check_data_order ⟨m.endian, .lsbFirst⟩ hdrEndian).2 = false ∧
    (check_data_order ⟨m.endian, .msbFirst⟩ hdrEndian).2 = true ∧
    s.needsBitSwap =
      (check_data_order env.machine (env.rawHeader s.dirname).endian).2 := by
  obtain ⟨dir, renamed, hres, hhr, hmg, hdir, hbs, hbit, -⟩ :=
    opened_inv opts env s h
  refine ⟨rfl, rfl, rfl, ?_⟩
  rw [hdir, hbit]
  rfl

/-- Witness for C2: the flags on a concrete successful open. -/
theorem check_data_order_bit_swap_witness :
    (check_data_order ⟨1, .msbFirst⟩ 1).2 =
      (recordMagicField BitOrder.msbFirst (RECORD_MAGIC <<< 3) !=
        RECORD_MAGIC) ∧
    (check_data_order ⟨1, .lsbFirst⟩ 1).2 = false ∧
    (check_data_order ⟨1, .msbFirst⟩ 1).2 = true ∧
    stateC1.needsBitSwap =
      (check_data_order envC1.machine
        (envC1.rawHeader stateC1.dirname).endian).2 :=
  check_data_order_bit_swap ⟨1, .msbFirst⟩ 1 optsC1 envC1 stateC1 (by decide)

/-- C3: `open_data_file` fails fatally for every header whose
(normalized) version is strictly below the minimum supported version or
strictly above the current maximum, and does not fail the version check
at exactly the minimum or exactly the maximum (inclusive bounds). -/
theorem open_data_file_version_range (opts : Opts) (env : Env)
    (dir : String) (renamed : Bool)
    (hres : resolveDir env opts = .ok dir renamed)
    (hhr : env.headerReadOk dir = true)
    (hmg : env.magicOk dir = true) :
    let v := (normalizeHeader env.machine (env.rawHeader dir)).2.version
    ((v < UFTRACE_FILE_VERSION_MIN ∨ UFTRACE_FILE_VERSION < v) →
      open_data_file opts env = .fatal .badVersion) ∧
    ((v = UFTRACE_FILE_VERSION_MIN ∨ v = UFTRACE_FILE_VERSION) →
      open_data_file opts env ≠ .fatal .badVersion) := by
  intro v
  constructor
  · intro hout
    simp only [open_data_file, hres, hhr, hmg, Bool.not_true,
      Bool.false_eq_true, if_false]
    have : (decide (v < UFTRACE_FILE_VERSION_MIN) ||
        decide (UFTRACE_FILE_VERSION < v)) = true := by
      rcases hout with h1 | h1 <;> simp [h1]
    rw [if_pos this]
  · intro hin
    have hcond : (decide (v < UFTRACE_FILE_VERSION_MIN) ||
        decide (UFTRACE_FILE_VERSION < v)) = false := by
      rcases hin with h1 | h1 <;>
        simp [h1, UFTRACE_FILE_VERSION_MIN, UFTRACE_FILE_VERSION]
    simp only [open_data_file, hres, hhr, hmg, Bool.not_true,
      Bool.false_eq_true, if_false, hcond]
    split
    · simp
    · split
      · simp
      · split <;> simp

/-- Environment whose normalized version is `UFTRACE_FILE_VERSION_MIN
- 1` (no byte swap). -/
def envC3bad : Env :=
  { envC1 with
    rawHeader := fun _ => ⟨UFTRACE_FILE_VERSION_MIN - 1, 1, 0, 0, 0⟩ }

/-- Environment whose normalized version is exactly
`UFTRACE_FILE_VERSION_MIN`. -/
def envC3min : Env :=
  { envC1 with
    rawHeader := fun _ => ⟨UFTRACE_FILE_VERSION_MIN, 1, 0, 0, 0⟩ }

/-- Witness for C3: version MIN−1 is fatally rejected, version MIN is
not rejected by the version check. -/
theorem open_data_file_version_range_witness :
    open_data_file optsC1 envC3bad = .fatal .badVersion ∧
    open_data_file optsC1 envC3min ≠ .fatal .badVersion :=
  ⟨(open_data_file_version_range optsC1 envC3bad "d" false (by decide)
      (by decide) (by decide)).1 (by decide),
   (open_data_file_version_range optsC1 envC3min "d" false (by decide)
      (by decide) (by decide)).2 (by decide)⟩

/-- C5: when opening the `info` file fails with not-found and the
configured directory equals the current default, `open_data_file`
retries exactly once against the fixed legacy default directory; on
success the legacy name becomes the active directory (propagated to
`opts->dirname`); a second not-found gives up (fatally when an exename
is configured); any open failure other than not-found is immediately
fatal with no retry. -/
theorem open_data_file_dir_fallback (opts : Opts) (env : Env) :
    (env.infoOpen opts.dirname = some .enoent →
      opts.dirname = UFTRACE_DIR_NAME →
      env.infoOpen UFTRACE_DIR_OLD_NAME = none →
      resolveDir env opts = .ok UFTRACE_DIR_OLD_NAME true ∧
      ∀ s, open_data_file opts env = .opened s →
        s.dirname = UFTRACE_DIR_OLD_NAME) ∧
    (env.infoOpen opts.dirname = some .enoent →
      opts.dirname = UFTRACE_DIR_NAME →
      env.infoOpen UFTRACE_DIR_OLD_NAME = some .enoent →
      open_data_file opts env =
        (if opts.exename.isSome then .fatal .recordHint else .failed)) ∧
    (env.infoOpen opts.dirname = some .enoent →
      opts.dirname = UFTRACE_DIR_NAME →
      env.infoOpen UFTRACE_DIR_OLD_NAME = some .other →
      open_data_file opts env = .fatal .openOther) ∧
    (env.infoOpen opts.dirname = some .enoent →
      opts.dirname ≠ UFTRACE_DIR_NAME →
      open_data_file opts env =
        (if opts.exename.isSome then .fatal .recordHint else .failed)) ∧
    (env.infoOpen opts.dirname = some .other →
      open_data_file opts env = .fatal .openOther) := by
  refine ⟨?_, ?_, ?_, ?_, ?_⟩
  · intro h1 h2 h3
    rw [h2] at h1
    have hres : resolveDir env opts = .ok UFTRACE_DIR_OLD_NAME true := by
      simp [resolveDir, h1, h2, h3]
    refine ⟨hres, ?_⟩
    intro s hs
    obtain ⟨dir, renamed, hres', -, -, hdir, -⟩ := opened_inv opts env s hs
    rw [hres] at hres'
    cases hres'
    exact hdir
  · intro h1 h2 h3
    rw [h2] at h1
    cases hex : opts.exename.isSome with
    | true =>
      have hres : resolveDir env opts = .fatal .recordHint := by
        simp [resolveDir, h1, h2, h3, hex]
      simp [open_data_file, hres, hex]
    | false =>
      have hres : resolveDir env opts = .failed := by
        simp [resolveDir, h1, h2, h3, hex]
      simp [open_data_file, hres, hex]
  · intro h1 h2 h3
    rw [h2] at h1
    have hres : resolveDir env opts = .fatal .openOther := by
      simp [resolveDir, h1, h2, h3]
    simp [open_data_file, hres]
  · intro h1 h2
    cases hex : opts.exename.isSome with
    | true =>
      have hres : resolveDir env opts = .fatal .recordHint := by
        simp [resolveDir, h1, h2, hex]
      simp [open_data_file, hres, hex]
    | false =>
      have hres : resolveDir env opts = .failed := by
        simp [resolveDir, h1, h2, hex]
      simp [open_data_file, hres, hex]
  · intro h1
    have hres : resolveDir env opts = .fatal .openOther := by
      simp [resolveDir, h1]
    simp [open_data_file, hres]

/-- Options naming the current default directory, for the C5
witness. -/
def optsC5 : Opts := ⟨UFTRACE_DIR_NAME, none⟩

/-- Environment where the default directory's `info` is missing but
the legacy directory opens, for the C5 witness. -/
def envC5 : Env :=
  { envC1 with
    infoOpen := fun d => if d = UFTRACE_DIR_OLD_NAME then none
      else some .enoent
    rawHeader := fun _ => ⟨2, 1, 0, 0, 0⟩ }

/-- Witness for C5: the concrete fallback run lands on the legacy
directory. -/
theorem open_data_file_dir_fallback_witness :
    resolveDir envC5 optsC5 = .ok UFTRACE_DIR_OLD_NAME true ∧
    ∀ s, open_data_file optsC5 envC5 = .opened s →
      s.dirname = UFTRACE_DIR_OLD_NAME :=
  (open_data_file_dir_fallback optsC5 envC5).1 (by decide) rfl (by decide)

/-- The header after the byte-swap normalization step, as a function
of the environment and the active directory. -/
def swappedHeader (env : Env) (dir : String) : Header :=
  (normalizeHeader env.machine (env.rawHeader dir)).2

theorem txt_ret_some_eq_zero (lines : List (List Char)) (errnoVal : Nat)
    (ns sr : Bool) (init : ScanVars) (r : Int) (st : TxtState)
    (h : read_task_txt_file (some lines) errnoVal ns sr init = .ok (r, st)) :
    r = 0 := by
  simp only [read_task_txt_file] at h
  split at h
  · exact absurd h (by simp)
  · cases h; rfl

theorem sessionStage_attempts (env : Env) (dir : String) (symRel : Bool)
    (herr : 0 < env.errnoTxt) :
    (∀ evs warned aTxt aLeg,
      sessionStage env dir symRel = .ok (evs, warned, aTxt, aLeg) →
      aTxt = true ∧ (aLeg = true ↔ env.txtLines dir = none)) ∧
    (env.txtLines dir = none →
      (read_task_file (env.taskBytes dir) true symRel).1 < 0 →
      sessionStage env dir symRel =
        .ok ((read_task_file (env.taskBytes dir) true symRel).2.1,
          true, true, true)) := by
  constructor
  · intro evs warned aTxt aLeg h
    cases henv : env.txtLines dir with
    | none =>
      have hread : read_task_txt_file (env.txtLines dir) env.errnoTxt true
          symRel env.initVars =
          .ok (-(env.errnoTxt : Int), ⟨env.initVars, [], []⟩) := by
        rw [henv]
        rfl
      have hneg : (-(env.errnoTxt : Int) < 0) := by
        simp only [Left.neg_neg_iff, Int.natCast_pos]
        exact herr
      simp only [sessionStage, hread, hneg, if_true] at h
      split at h <;>
        · rw [Except.ok.injEq, Prod.mk.injEq, Prod.mk.injEq,
            Prod.mk.injEq] at h
          exact ⟨h.2.2.1.symm, by simp [← h.2.2.2]⟩
    | some lines =>
      cases hread : read_task_txt_file (env.txtLines dir) env.errnoTxt true
          symRel env.initVars with
      | error a =>
        simp only [sessionStage, hread] at h
        simp at h
      | ok p =>
        obtain ⟨r, st⟩ := p
        have hr : r = 0 := by
          rw [henv] at hread
          exact txt_ret_some_eq_zero lines env.errnoTxt true symRel
            env.initVars r st hread
        subst hr
        simp only [sessionStage, hread] at h
        rw [if_neg (by norm_num)] at h
        rw [Except.ok.injEq, Prod.mk.injEq, Prod.mk.injEq,
          Prod.mk.injEq] at h
        exact ⟨h.2.2.1.symm, by simp [← h.2.2.2]⟩
  · intro htxt hleg
    have hread : read_task_txt_file (env.txtLines dir) env.errnoTxt true
        symRel env.initVars =
        .ok (-(env.errnoTxt : Int), ⟨env.initVars, [], []⟩) := by
      rw [htxt]
      rfl
    have hneg : (-(env.errnoTxt : Int) < 0) := by
      simp only [Left.neg_neg_iff, Int.natCast_pos]
      exact herr
    simp only [sessionStage, hread, hneg, if_true, hleg, List.nil_append]

/-- C4 (amended): with the session-info feature bit set,
`open_data_file` attempts the text reader first, attempts the legacy
binary reader if and only if the text reader reports failure, and when
both report failure still succeeds after emitting only a warning; the
registry then holds exactly the events the legacy reader emitted before
failing — empty when both files are absent. -/
theorem open_data_file_session_fallback (opts : Opts) (env : Env)
    (herr : 0 < env.errnoTxt) :
    (∀ s, open_data_file opts env = .opened s →
      (swappedHeader env s.dirname).feat_mask &&& TASK_SESSION ≠ 0 →
      s.attemptedTxt = true ∧
      (s.attemptedLegacy = true ↔ env.txtLines s.dirname = none)) ∧
    (∀ dir renamed, resolveDir env opts = .ok dir renamed →
      env.headerReadOk dir = true → env.magicOk dir = true →
      ¬((swappedHeader env dir).version < UFTRACE_FILE_VERSION_MIN ∨
        UFTRACE_FILE_VERSION < (swappedHeader env dir).version) →
      env.infoReadOk dir = true →
      (swappedHeader env dir).feat_mask &&& TASK_SESSION ≠ 0 →
      env.txtLines dir = none →
      (read_task_file (env.taskBytes dir) true
        ((swappedHeader env dir).feat_mask &&& SYM_REL_ADDR != 0)).1 < 0 →
      ∃ s, open_data_file opts env = .opened s ∧
        s.warned = true ∧
        s.events = (read_task_file (env.taskBytes dir) true
          ((swappedHeader env dir).feat_mask &&& SYM_REL_ADDR != 0)).2.1 ∧
        (env.taskBytes dir = none → s.events = [])) := by
  constructor
  · intro s h hfeat
    obtain ⟨dir, renamed, hres, hhr, hmg, hdir, -, -, -, -, -, -, hsess, -⟩ :=
      opened_inv opts env s h
    rw [hdir] at hfeat
    have hfeatb :
        ((normalizeHeader env.machine (env.rawHeader dir)).2.feat_mask &&&
          TASK_SESSION != 0) = true := by
      simpa [bne_iff_ne, swappedHeader] using hfeat
    rw [if_pos hfeatb] at hsess
    have := (sessionStage_attempts env dir
      ((normalizeHeader env.machine (env.rawHeader dir)).2.feat_mask &&&
        SYM_REL_ADDR != 0) herr).1 s.events s.warned s.attemptedTxt
      s.attemptedLegacy hsess
    rw [hdir]
    exact this
  · intro dir renamed hres hhr hmg hver hinfo hfeat htxt hleg
    simp only [swappedHeader] at hver hfeat hleg
    have hfeatb :
        ((normalizeHeader env.machine (env.rawHeader dir)).2.feat_mask &&&
          TASK_SESSION != 0) = true := by
      simpa [bne_iff_ne] using hfeat
    have hsess := (sessionStage_attempts env dir
      ((normalizeHeader env.machine (env.rawHeader dir)).2.feat_mask &&&
        SYM_REL_ADDR != 0) herr).2 htxt hleg
    have hopen : open_data_file opts env = .opened
        { dirname := dir
          optsExename := match opts.exename with
            | none => some env.infoExename
            | some e => some e
          needsByteSwap :=
            (normalizeHeader env.machine (env.rawHeader dir)).1.1
          needsBitSwap :=
            (normalizeHeader env.machine (env.rawHeader dir)).1.2
          hdrSwapped := (normalizeHeader env.machine (env.rawHeader dir)).2
          hdr := if (normalizeHeader env.machine
                (env.rawHeader dir)).2.feat_mask &&& MAX_STACK == 0 then
              { (normalizeHeader env.machine (env.rawHeader dir)).2 with
                max_stack := MCOUNT_RSTACK_MAX }
            else (normalizeHeader env.machine (env.rawHeader dir)).2
          events := (read_task_file (env.taskBytes dir) true
            ((normalizeHeader env.machine (env.rawHeader dir)).2.feat_mask
              &&& SYM_REL_ADDR != 0)).2.1
          warned := true
          attemptedTxt := true
          attemptedLegacy := true } := by
      have hverb : (decide ((normalizeHeader env.machine
            (env.rawHeader dir)).2.version < UFTRACE_FILE_VERSION_MIN) ||
          decide ((normalizeHeader env.machine
            (env.rawHeader dir)).2.version > UFTRACE_FILE_VERSION)) =
          false := by
        push_neg at hver
        simp only [Bool.or_eq_false_iff, decide_eq_false_iff_not, not_lt]
        exact ⟨hver.1, hver.2⟩
      simp only [open_data_file, hres, hhr, hmg, Bool.not_true,
        Bool.false_eq_true, if_false, hverb]
      simp only [hinfo, Bool.not_true, Bool.false_eq_true, if_false]
      rw [if_pos hfeatb, hsess]
    refine ⟨_, hopen, rfl, rfl, ?_⟩
    intro habs
    simp only [habs]
    rfl

/-- Bytes of a legacy `task` file holding one well-formed TID message
followed by a bad-magic envelope: the reader emits one task event and
then fails. -/
def taskBytesC4 : List Nat :=
  [0xce, 0xfa, 3, 0, 0, 0, 0, 0] ++
  [7, 0, 0, 0, 0, 0, 0, 0] ++ [9, 0, 0, 0] ++ [8, 0, 0, 0] ++
  [0, 0, 0, 0, 0, 0, 0, 0]

/-- Environment for the C4 counterexample: `task.txt` absent, `task`
present but malformed after one valid message. -/
def envC4 : Env :=
  { envC1 with
    rawHeader := fun _ => ⟨2, 1, TASK_SESSION, 0, 0⟩
    taskBytes := fun _ => some taskBytesC4 }

/-- The state the C4 counterexample run opens. -/
def stateC4 : OpenedState :=
  { dirname := "d"
    optsExename := some "a.out"
    needsByteSwap := false
    needsBitSwap := false
    hdrSwapped := ⟨2, 1, TASK_SESSION, 0, 0⟩
    hdr := ⟨2, 1, TASK_SESSION, 0, MCOUNT_RSTACK_MAX⟩
    events := [.createTask 8 9 7 false true]
    warned := true
    attemptedTxt := true
    attemptedLegacy := true }

/-- Counterexample to C4 as stated: both readers report failure, the
open succeeds with a warning, yet the registry is NOT empty — the
legacy reader had already emitted a task event before aborting. -/
theorem open_data_file_session_fallback_counterexample :
    envC4.txtLines "d" = none ∧
    (read_task_file (envC4.taskBytes "d") true false).1 = -1 ∧
    open_data_file optsC1 envC4 = .opened stateC4 ∧
    stateC4.warned = true ∧
    stateC4.events ≠ [] := by decide

/-- Witness for C4 (amended), on the counterexample environment. -/
theorem open_data_file_session_fallback_witness :
    0 < envC4.errnoTxt ∧
    (∃ s, open_data_file optsC1 envC4 = .opened s ∧
      s.warned = true ∧
      s.events = (read_task_file (envC4.taskBytes "d") true
        ((swappedHeader envC4 "d").feat_mask &&& SYM_REL_ADDR != 0)).2.1 ∧
      (envC4.taskBytes "d" = none → s.events = [])) :=
  ⟨by decide,
   (open_data_file_session_fallback optsC1 envC4 (by decide)).2 "d" false
     (by decide) (by decide) (by decide) (by decide) (by decide)
     (by decide) (by decide) (by decide)⟩

/-- Uninitialized scan variables for witnesses. -/
def zeroVars : ScanVars := ⟨0, 0, 0, 0, 0, [], 0, [], 0⟩

/-- C10: `read_task_txt_file` returns a non-zero (error) result only
when the text file cannot be opened; once the file opens it returns `0`
whatever the lines contain (apart from the process-aborting paths), so
a present-but-malformed `task.txt` is reported as success and never
triggers the legacy fallback in `open_data_file`. -/
theorem read_task_txt_file_fail_only_on_open (errnoVal : Nat)
    (ns sr : Bool) (init : ScanVars) (herr : 0 < errnoVal) :
    (∀ lines r st,
      read_task_txt_file (some lines) errnoVal ns sr init = .ok (r, st) →
      r = 0) ∧
    (read_task_txt_file none errnoVal ns sr init =
      .ok (-(errnoVal : Int), ⟨init, [], []⟩) ∧ -(errnoVal : Int) < 0) ∧
    (∀ opts env s lines, env.errnoTxt = errnoVal →
      open_data_file opts env = .opened s →
      env.txtLines s.dirname = some lines →
      s.attemptedLegacy = false) := by
  refine ⟨?_, ⟨rfl, ?_⟩, ?_⟩
  · intro lines r st h
    exact txt_ret_some_eq_zero lines errnoVal ns sr init r st h
  · simp only [Left.neg_neg_iff, Int.natCast_pos]
    exact herr
  · intro opts env s lines herrno h hlines
    obtain ⟨dir, renamed, hres, hhr, hmg, hdir, -, -, -, -, -, -, hsess, -⟩ :=
      opened_inv opts env s h
    rw [hdir] at hlines
    split at hsess
    · have := (sessionStage_attempts env dir _ (herrno ▸ herr)).1 s.events
        s.warned s.attemptedTxt s.attemptedLegacy hsess
      rcases this with ⟨-, hiff⟩
      by_contra hne
      have : s.attemptedLegacy = true := by
        cases hb : s.attemptedLegacy
        · exact absurd hb hne
        · rfl
      rw [hiff] at this
      rw [hlines] at this
      cases this
    · rw [Except.ok.injEq, Prod.mk.injEq, Prod.mk.injEq,
        Prod.mk.injEq] at hsess
      exact hsess.2.2.2.symm

/-- Witness for C10 at a concrete malformed present file. -/
theorem read_task_txt_file_fail_only_on_open_witness :
    0 < 2 ∧
    ((∀ lines r st,
      read_task_txt_file (some lines) 2 true false zeroVars = .ok (r, st) →
      r = 0) ∧
    (read_task_txt_file none 2 true false zeroVars =
      .ok (-(2 : Int), ⟨zeroVars, [], []⟩) ∧ -(2 : Int) < 0) ∧
    (∀ opts env s lines, env.errnoTxt = 2 →
      open_data_file opts env = .opened s →
      env.txtLines s.dirname = some lines →
      s.attemptedLegacy = false)) :=
  ⟨by decide, read_task_txt_file_fail_only_on_open 2 true false zeroVars
    (by decide)⟩

/-- C6: for every legacy SESSION message, the reader consumes exactly
`namelen` bytes of name payload followed by exactly
`8 - (namelen mod 8)` padding bytes when `namelen` is not a multiple of
8 and zero padding bytes when it is, before the next envelope is read;
in particular `namelen = 5` consumes 3 padding bytes and `namelen = 8`
consumes none. -/
theorem read_task_file_session_padding (file : List Nat)
    (ns sr : Bool) (pos : Nat) (evs : List RegEvent) (mb sb nb : List Nat)
    (hmb : readAll file pos sizeof_msg = some mb)
    (hmagic : msg_magic mb = FTRACE_MSG_MAGIC)
    (htype : msg_type mb = FTRACE_MSG_SESSION)
    (hsb : readAll file (pos + sizeof_msg) sizeof_smsg = some sb)
    (hnb : readAll file (pos + sizeof_msg + sizeof_smsg)
      (smsg_namelen sb) = some nb)
    (hpb : smsg_namelen sb % 8 ≠ 0 →
      (readAll file (pos + sizeof_msg + sizeof_smsg + smsg_namelen sb)
        (8 - smsg_namelen sb % 8)).isSome) :
    (∃ evs', taskStep file ns sr pos evs =
      .next (pos + sizeof_msg + sizeof_smsg + smsg_namelen sb +
        sessionPad (smsg_namelen sb)) evs') ∧
    (smsg_namelen sb % 8 ≠ 0 →
      sessionPad (smsg_namelen sb) = 8 - smsg_namelen sb % 8) ∧
    (smsg_namelen sb % 8 = 0 → sessionPad (smsg_namelen sb) = 0) ∧
    sessionPad 5 = 3 ∧ sessionPad 8 = 0 := by
  refine ⟨?_, ?_, ?_, by decide, by decide⟩
  · simp only [taskStep, hmb, hmagic, htype, hsb, hnb, bne_self_eq_false,
      Bool.false_eq_true, if_false, beq_self_eq_true, if_true]
    by_cases hmod : smsg_namelen sb % 8 = 0
    · simp only [hmod, bne_self_eq_false, Bool.false_eq_true, if_false]
      exact ⟨_, rfl⟩
    · have hmodb : (smsg_namelen sb % 8 != 0) = true := by
        simpa [bne_iff_ne] using hmod
      obtain ⟨pb, hpb'⟩ := Option.isSome_iff_exists.mp (hpb hmod)
      simp only [hmodb, if_true, hpb']
      exact ⟨_, rfl⟩
  · intro hmod
    simp only [sessionPad]
    rw [if_pos (by simpa [bne_iff_ne] using hmod)]
  · intro hmod
    simp only [sessionPad]
    rw [if_neg (by simp [hmod])]

/-- A legacy `task` file holding one SESSION message with
`namelen = 5` (name `hello` plus 3 padding bytes). -/
def taskBytesC6 : List Nat :=
  [0xce, 0xfa, 6, 0, 0, 0, 0, 0] ++
  List.replicate 16 0 ++
  ([97, 98, 99] ++ List.replicate 13 0) ++
  [0, 0, 0, 0] ++ [5, 0, 0, 0] ++
  [104, 101, 108, 108, 111] ++ [0, 0, 0]

/-- Witness for C6: the concrete `namelen = 5` SESSION message
advances the cursor by 8 + 40 + 5 + 3 bytes. -/
theorem read_task_file_session_padding_witness :
    (∃ evs', taskStep taskBytesC6 true false 0 [] =
      .next (0 + sizeof_msg + sizeof_smsg +
        smsg_namelen ((taskBytesC6.drop 8).take 40) +
        sessionPad (smsg_namelen ((taskBytesC6.drop 8).take 40))) evs') ∧
    (smsg_namelen ((taskBytesC6.drop 8).take 40) % 8 ≠ 0 →
      sessionPad (smsg_namelen ((taskBytesC6.drop 8).take 40)) =
        8 - smsg_namelen ((taskBytesC6.drop 8).take 40) % 8) ∧
    (smsg_namelen ((taskBytesC6.drop 8).take 40) % 8 = 0 →
      sessionPad (smsg_namelen ((taskBytesC6.drop 8).take 40)) = 0) ∧
    sessionPad 5 = 3 ∧ sessionPad 8 = 0 :=
  read_task_file_session_padding taskBytesC6 true false 0 []
    ((taskBytesC6.drop 0).take 8) ((taskBytesC6.drop 8).take 40)
    ((taskBytesC6.drop 48).take 5)
    (by decide) (by decide) (by decide) (by decide) (by decide)
    (fun _ => by decide)

/-- Mirror of C9's acceptance condition on the legacy `task` file,
written from the claim: the file is accepted exactly when the envelope
loop runs to the end of the readable file — every envelope read in
full has the expected magic and a SESSION/TID/FORK_END tag, and every
payload (with its name and padding for SESSION) is read in full; it is
rejected on a bad magic, an unknown tag, or a short payload read. -/
def taskFileAccepts (file : List Nat) : Nat → Nat → Bool
  | 0, _ => false
  | fuel + 1, pos =>
    match readAll file pos sizeof_msg with
    | none => true
    | some mb =>
      if msg_magic mb ≠ FTRACE_MSG_MAGIC then false
      else if msg_type mb = FTRACE_MSG_SESSION then
        match readAll file (pos + sizeof_msg) sizeof_smsg with
        | none => false
        | some sb =>
          if (readAll file (pos + sizeof_msg + sizeof_smsg)
              (smsg_namelen sb)).isNone then false
          else if smsg_namelen sb % 8 ≠ 0 ∧
              (readAll file
                (pos + sizeof_msg + sizeof_smsg + smsg_namelen sb)
                (8 - smsg_namelen sb % 8)).isNone then false
          else
            taskFileAccepts file fuel
              (pos + sizeof_msg + sizeof_smsg + smsg_namelen sb +
                sessionPad (smsg_namelen sb))
      else if msg_type mb = FTRACE_MSG_TID ∨
          msg_type mb = FTRACE_MSG_FORK_END then
        if (readAll file (pos + sizeof_msg) sizeof_tmsg).isNone then false
        else taskFileAccepts file fuel (pos + sizeof_msg + sizeof_tmsg)
      else false

theorem taskLoop_accepts (file : List Nat) (ns sr : Bool) :
    ∀ fuel pos evs,
    ((taskLoop file ns sr fuel pos evs).1 = 0 ∨
      (taskLoop file ns sr fuel pos evs).1 = -1) ∧
    ((taskLoop file ns sr fuel pos evs).1 = 0 ↔
      taskFileAccepts file fuel pos = true) := by
  intro fuel
  induction fuel with
  | zero =>
    intro pos evs
    simp [taskLoop, taskFileAccepts]
  | succ f ih =>
    intro pos evs
    have tns : FTRACE_MSG_TID ≠ FTRACE_MSG_SESSION := by decide
    have fns : FTRACE_MSG_FORK_END ≠ FTRACE_MSG_SESSION := by decide
    have fnt : FTRACE_MSG_FORK_END ≠ FTRACE_MSG_TID := by decide
    cases hmb : readAll file pos sizeof_msg with
    | none =>
      have hstep : taskStep file ns sr pos evs = .stop 0 evs := by
        simp [taskStep, hmb]
      simp [taskLoop, hstep, taskFileAccepts, hmb]
    | some mb =>
      by_cases hmag : msg_magic mb = FTRACE_MSG_MAGIC
      · by_cases hsess : msg_type mb = FTRACE_MSG_SESSION
        · cases hsb : readAll file (pos + sizeof_msg) sizeof_smsg with
          | none =>
            have hstep : taskStep file ns sr pos evs = .stop (-1) evs := by
              simp [taskStep, hmb, hmag, hsess, hsb]
            simp [taskLoop, hstep, taskFileAccepts, hmb, hmag, hsess, hsb]
          | some sb =>
            cases hnb : readAll file (pos + sizeof_msg + sizeof_smsg)
                (smsg_namelen sb) with
            | none =>
              have hstep : taskStep file ns sr pos evs = .stop (-1) evs := by
                simp [taskStep, hmb, hmag, hsess, hsb, hnb]
              simp [taskLoop, hstep, taskFileAccepts, hmb, hmag, hsess,
                hsb, hnb]
            | some nb =>
              by_cases hmod : smsg_namelen sb % 8 = 0
              · have hstep : taskStep file ns sr pos evs =
                    .next (pos + sizeof_msg + sizeof_smsg +
                      smsg_namelen sb + sessionPad (smsg_namelen sb))
                      (if ns then evs ++ [.createSession (tmsg_pid sb)
                        (tmsg_time sb) (smsg_sid sb) (cString nb) sr]
                       else evs) := by
                  simp [taskStep, hmb, hmag, hsess, hsb, hnb, hmod]
                simp only [taskLoop, hstep]
                have hacc : taskFileAccepts file (f + 1) pos =
                    taskFileAccepts file f (pos + sizeof_msg +
                      sizeof_smsg + smsg_namelen sb +
                      sessionPad (smsg_namelen sb)) := by
                  simp [taskFileAccepts, hmb, hmag, hsess, hsb, hnb, hmod]
                rw [hacc]
                exact ih _ _
              · cases hpb : readAll file (pos + sizeof_msg + sizeof_smsg +
                    smsg_namelen sb) (8 - smsg_namelen sb % 8) with
                | none =>
                  have hstep : taskStep file ns sr pos evs =
                      .stop (-1) evs := by
                    simp [taskStep, hmb, hmag, hsess, hsb, hnb, hmod, hpb]
                  simp [taskLoop, hstep, taskFileAccepts, hmb, hmag,
                    hsess, hsb, hnb, hmod, hpb]
                | some pb =>
                  have hstep : taskStep file ns sr pos evs =
                      .next (pos + sizeof_msg + sizeof_smsg +
                        smsg_namelen sb + sessionPad (smsg_namelen sb))
                        (if ns then evs ++ [.createSession (tmsg_pid sb)
                          (tmsg_time sb) (smsg_sid sb) (cString nb) sr]
                         else evs) := by
                    simp [taskStep, hmb, hmag, hsess, hsb, hnb, hmod, hpb]
                  simp only [taskLoop, hstep]
                  have hacc : taskFileAccepts file (f + 1) pos =
                      taskFileAccepts file f (pos + sizeof_msg +
                        sizeof_smsg + smsg_namelen sb +
                        sessionPad (smsg_namelen sb)) := by
                    simp [taskFileAccepts, hmb, hmag, hsess, hsb, hnb,
                      hmod, hpb]
                  rw [hacc]
                  exact ih _ _
        · by_cases htid : msg_type mb = FTRACE_MSG_TID
          · cases htb : readAll file (pos + sizeof_msg) sizeof_tmsg with
            | none =>
              have hstep : taskStep file ns sr pos evs = .stop (-1) evs := by
                simp [taskStep, hmb, hmag, hsess, htid, htb, tns, fns, fnt]
              simp [taskLoop, hstep, taskFileAccepts, hmb, hmag, hsess,
                htid, htb, tns, fns, fnt]
            | some tb =>
              have hstep : taskStep file ns sr pos evs =
                  .next (pos + sizeof_msg + sizeof_tmsg)
                    (evs ++ [.createTask (tmsg_tid tb) (tmsg_pid tb)
                      (tmsg_time tb) false ns]) := by
                simp [taskStep, hmb, hmag, hsess, htid, htb, tns, fns, fnt]
              simp only [taskLoop, hstep]
              have hacc : taskFileAccepts file (f + 1) pos =
                  taskFileAccepts file f (pos + sizeof_msg + sizeof_tmsg)
                  := by
                simp [taskFileAccepts, hmb, hmag, hsess, htid, htb, tns, fns, fnt]
              rw [hacc]
              exact ih _ _
          · by_cases hfork : msg_type mb = FTRACE_MSG_FORK_END
            · cases htb : readAll file (pos + sizeof_msg) sizeof_tmsg with
              | none =>
                have hstep : taskStep file ns sr pos evs =
                    .stop (-1) evs := by
                  simp [taskStep, hmb, hmag, hsess, htid, hfork, htb, tns, fns, fnt]
                simp [taskLoop, hstep, taskFileAccepts, hmb, hmag, hsess,
                  htid, hfork, htb, tns, fns, fnt]
              | some tb =>
                have hstep : taskStep file ns sr pos evs =
                    .next (pos + sizeof_msg + sizeof_tmsg)
                      (evs ++ [.createTask (tmsg_tid tb) (tmsg_pid tb)
                        (tmsg_time tb) true ns]) := by
                  simp [taskStep, hmb, hmag, hsess, htid, hfork, htb, tns, fns, fnt]
                simp only [taskLoop, hstep]
                have hacc : taskFileAccepts file (f + 1) pos =
                    taskFileAccepts file f (pos + sizeof_msg + sizeof_tmsg)
                    := by
                  simp [taskFileAccepts, hmb, hmag, hsess, htid, hfork, htb, tns, fns, fnt]
                rw [hacc]
                exact ih _ _
            · have hstep : taskStep file ns sr pos evs = .stop (-1) evs
                  := by
                simp [taskStep, hmb, hmag, hsess, htid, hfork, tns, fns, fnt]
              simp [taskLoop, hstep, taskFileAccepts, hmb, hmag, hsess,
                htid, hfork, tns, fns, fnt]
      · have hstep : taskStep file ns sr pos evs = .stop (-1) evs := by
          simp [taskStep, hmb, hmag]
        simp [taskLoop, hstep, taskFileAccepts, hmb, hmag]

/-- C9: `read_task_file` rejects the whole file — returning `-1` after
abandoning the parse — whenever an envelope's magic differs from the
expected constant, an envelope carries a tag other than
SESSION/TID/FORK_END, or a payload read is short or fails; the result
is always 0 or -1, and it is 0 exactly when the envelope loop runs to
the end of the readable file with none of those errors
(`taskFileAccepts`). -/
theorem read_task_file_result (bytes : List Nat) (ns sr : Bool) :
    ((read_task_file (some bytes) ns sr).1 = 0 ∨
      (read_task_file (some bytes) ns sr).1 = -1) ∧
    ((read_task_file (some bytes) ns sr).1 = 0 ↔
      taskFileAccepts bytes (bytes.length + 1) 0 = true) :=
  taskLoop_accepts bytes ns sr (bytes.length + 1) 0 []

/-! ## Decimal round-trip lemmas for C7 -/

theorem expects_append (p rest : List Char) :
    expects p (p ++ rest) = some rest := by
  induction p with
  | nil => rfl
  | cons c cs ih => simp [expects, ih]

/-- Whether a list starts with a decimal digit. -/
def headIsDigit : List Char → Bool
  | [] => false
  | c :: _ => c.isDigit

theorem parseNatAux_nondigit (cs : List Char) (acc : Nat)
    (h : headIsDigit cs = false) : parseNatAux cs acc = (acc, cs) := by
  cases cs with
  | nil => rfl
  | cons c cs' =>
    simp only [headIsDigit] at h
    simp [parseNatAux, h]

/-- Value accumulated by `parseNatAux` over a digit list. -/
def valDigits : List Char → Nat → Nat
  | [], acc => acc
  | c :: cs, acc => valDigits cs (acc * 10 + (c.toNat - 48))

theorem parseNatAux_digits (ds : List Char) :
    ∀ (rest : List Char) (acc : Nat),
    (∀ c ∈ ds, c.isDigit = true) → headIsDigit rest = false →
    parseNatAux (ds ++ rest) acc = (valDigits ds acc, rest) := by
  induction ds with
  | nil =>
    intro rest acc _ hr
    simp [valDigits, parseNatAux_nondigit rest acc hr]
  | cons c cs ih =>
    intro rest acc h hr
    have hc : c.isDigit = true := h c (by simp)
    simp only [List.cons_append, parseNatAux, hc, if_true, valDigits]
    exact ih rest _ (fun x hx => h x (by simp [hx])) hr

theorem valDigits_append (xs ys : List Char) :
    ∀ acc, valDigits (xs ++ ys) acc = valDigits ys (valDigits xs acc) := by
  induction xs with
  | nil => intro acc; rfl
  | cons c cs ih => intro acc; simp [valDigits, ih]

theorem digitChar_toNat (d : Nat) (h : d < 10) :
    (Char.ofNat (d + 48)).toNat = d + 48 := by
  interval_cases d <;> decide

theorem digitChar_isDigit (d : Nat) (h : d < 10) :
    (Char.ofNat (d + 48)).isDigit = true := by
  interval_cases d <;> decide

theorem natCharsAux_digits :
    ∀ fuel n, ∀ c ∈ natCharsAux fuel n, c.isDigit = true := by
  intro fuel
  induction fuel with
  | zero =>
    intro n c hc
    simp [natCharsAux] at hc
  | succ f ih =>
    intro n c hc
    simp only [natCharsAux] at hc
    split at hc
    · simp at hc
    · rcases List.mem_append.mp hc with h1 | h2
      · exact ih _ c h1
      · simp only [List.mem_singleton] at h2
        subst h2
        exact digitChar_isDigit _ (Nat.mod_lt _ (by norm_num))

theorem natCharsAux_ne_nil (fuel n : Nat) (hn : n ≠ 0) (hf : fuel ≠ 0) :
    natCharsAux fuel n ≠ [] := by
  cases fuel with
  | zero => exact absurd rfl hf
  | succ f => simp [natCharsAux, hn]

theorem valDigits_natCharsAux :
    ∀ fuel n acc, n ≤ fuel →
    valDigits (natCharsAux fuel n) acc =
      acc * 10 ^ (natCharsAux fuel n).length + n := by
  intro fuel
  induction fuel with
  | zero =>
    intro n acc h
    interval_cases n
    simp [natCharsAux, valDigits]
  | succ f ih =>
    intro n acc h
    by_cases hn : n = 0
    · subst hn
      simp [natCharsAux, valDigits]
    · have hlt : n / 10 < n := Nat.div_lt_self (Nat.pos_of_ne_zero hn)
        (by norm_num)

      have hrec : n / 10 ≤ f := by omega
      have hdm : n / 10 * 10 + n % 10 = n := by omega
      simp only [natCharsAux, hn, if_false, List.length_append,
        List.length_singleton]
      rw [valDigits_append, ih _ _ hrec]
      simp only [valDigits, digitChar_toNat (n % 10)
        (Nat.mod_lt _ (by norm_num))]
      have h48 : n % 10 + 48 - 48 = n % 10 := by omega
      rw [h48, pow_succ]
      calc (acc * 10 ^ (natCharsAux f (n / 10)).length + n / 10) * 10 +
            n % 10
          = acc * (10 ^ (natCharsAux f (n / 10)).length * 10) +
            (n / 10 * 10 + n % 10) := by ring
        _ = acc * (10 ^ (natCharsAux f (n / 10)).length * 10) + n := by
            rw [hdm]

theorem parseNat_digits_append (ds rest : List Char) (hne : ds ≠ [])
    (hds : ∀ c ∈ ds, c.isDigit = true) (hr : headIsDigit rest = false) :
    parseNat (ds ++ rest) = some (valDigits ds 0, rest) := by
  cases ds with
  | nil => exact absurd rfl hne
  | cons c cs =>
    have hc : c.isDigit = true := hds c (by simp)
    simp only [List.cons_append, parseNat, hc, if_true]
    rw [show (c :: (cs ++ rest)) = (c :: cs) ++ rest from rfl,
      parseNatAux_digits (c :: cs) rest 0 hds hr]

theorem natToChars_ne_nil (n : Nat) : natToChars n ≠ [] := by
  by_cases hn : n = 0
  · simp [natToChars, hn]
  · simp only [natToChars, hn, if_false]
    exact natCharsAux_ne_nil _ _ hn (by omega)

theorem natToChars_digits (n : Nat) :
    ∀ c ∈ natToChars n, c.isDigit = true := by
  by_cases hn : n = 0
  · subst hn
    intro c hc
    simp [natToChars] at hc
    subst hc
    decide
  · simp only [natToChars, hn, if_false]
    exact natCharsAux_digits _ n

theorem natToChars_val (n : Nat) : valDigits (natToChars n) 0 = n := by
  by_cases hn : n = 0
  · subst hn; decide
  · simp only [natToChars, hn, if_false]
    rw [valDigits_natCharsAux (n + 1) n 0 (by omega)]
    simp

theorem parseNat_natToChars (n : Nat) (rest : List Char)
    (hr : headIsDigit rest = false) :
    parseNat (natToChars n ++ rest) = some (n, rest) := by
  rw [parseNat_digits_append (natToChars n) rest (natToChars_ne_nil n)
    (natToChars_digits n) hr, natToChars_val]

theorem valDigits_zeros (k : Nat) :
    valDigits (List.replicate k '0') 0 = 0 := by
  have h : ∀ k, valDigits (List.replicate k '0') 0 = 0 := by
    intro k
    induction k with
    | zero => rfl
    | succ m ih => simpa [List.replicate_succ, valDigits] using ih
  exact h k

theorem pad9_digits (ds : List Char) (h : ∀ c ∈ ds, c.isDigit = true) :
    ∀ c ∈ pad9 ds, c.isDigit = true := by
  intro c hc
  rcases List.mem_append.mp hc with h1 | h2
  · have := List.eq_of_mem_replicate h1
    subst this
    decide
  · exact h c h2

theorem pad9_ne_nil (ds : List Char) (h : ds ≠ []) : pad9 ds ≠ [] := by
  simp only [pad9, ne_eq, List.append_eq_nil]
  intro hcon
  exact h hcon.2

theorem pad9_val (ds : List Char) :
    valDigits (pad9 ds) 0 = valDigits ds 0 := by
  rw [pad9, valDigits_append, valDigits_zeros]

theorem parseNat_pad9_natToChars (n : Nat) (rest : List Char)
    (hr : headIsDigit rest = false) :
    parseNat (pad9 (natToChars n) ++ rest) = some (n, rest) := by
  rw [parseNat_digits_append (pad9 (natToChars n)) rest
    (pad9_ne_nil _ (natToChars_ne_nil n))
    (pad9_digits _ (natToChars_digits n)) hr, pad9_val, natToChars_val]

theorem skipWs_cons_of_ws (c : Char) (l : List Char) (h : isWs c = true) :
    skipWs (c :: l) = skipWs l := by
  simp [skipWs, List.dropWhile, h]

theorem skipWs_cons_of_not_ws (c : Char) (l : List Char)
    (h : isWs c = false) : skipWs (c :: l) = c :: l := by
  simp [skipWs, List.dropWhile, h]

theorem not_ws_of_isDigit (c : Char) (h : c.isDigit = true) :
    isWs c = false := by
  cases hc : isWs c
  · rfl
  · exfalso
    simp only [isWs, Bool.or_eq_true, beq_iff_eq] at hc
    rcases hc with ((h1 | h1) | h1) | h1 <;>
      (subst h1; exact absurd h (by decide))

theorem skipWs_digits_append (ds rest : List Char) (hne : ds ≠ [])
    (hds : ∀ c ∈ ds, c.isDigit = true) :
    skipWs (ds ++ rest) = ds ++ rest := by
  cases ds with
  | nil => exact absurd rfl hne
  | cons c cs =>
    have hc : isWs c = false := not_ws_of_isDigit c (hds c (by simp))
    simp only [List.cons_append]
    exact skipWs_cons_of_not_ws c _ hc

theorem skipWs_intToChars (i : Int) (rest : List Char) :
    skipWs (intToChars i ++ rest) = intToChars i ++ rest := by
  by_cases hi : i < 0
  · simp only [intToChars, hi, if_true, List.cons_append]
    exact skipWs_cons_of_not_ws _ _ (by decide)
  · simp only [intToChars, hi, if_false]
    exact skipWs_digits_append _ rest (natToChars_ne_nil _)
      (natToChars_digits _)

theorem parseInt_intToChars (i : Int) (rest : List Char)
    (hr : headIsDigit rest = false) :
    parseInt (intToChars i ++ rest) = some (i, rest) := by
  have hskip : skipWs (intToChars i ++ rest) = intToChars i ++ rest :=
    skipWs_intToChars i rest
  simp only [parseInt, hskip]
  by_cases hi : i < 0
  · have h1 : intToChars i ++ rest =
        '-' :: (natToChars i.natAbs ++ rest) := by
      simp [intToChars, hi]
    rw [h1]
    split
    · rename_i rest' heq
      rw [List.cons.injEq] at heq
      rw [← heq.2, parseNat_natToChars i.natAbs rest hr]
      have hival : -((i.natAbs : Nat) : Int) = i := by omega
      simp only [Option.map_some']
      rw [hival]
    · rename_i hno
      exact absurd rfl (hno _)
  · have h1 : intToChars i ++ rest = natToChars i.natAbs ++ rest := by
      simp [intToChars, hi]
    rw [h1]
    split
    · rename_i rest' heq
      rcases hcons : natToChars i.natAbs with _ | ⟨c, cs⟩
      · exact absurd hcons (natToChars_ne_nil _)
      · rw [hcons, List.cons_append, List.cons.injEq] at heq
        have hc : c.isDigit = true :=
          natToChars_digits i.natAbs c (by rw [hcons]; simp)
        have hcne : c ≠ '-' := by
          intro hcon
          rw [hcon] at hc
          exact absurd hc (by decide)
        exact absurd heq.1 hcne
    · rw [parseNat_natToChars i.natAbs rest hr]
      have hival : ((i.natAbs : Nat) : Int) = i := by omega
      simp only [Option.map_some']
      rw [hival]

theorem skipWs_lit_tid (X : List Char) :
    skipWs ("tid=".toList ++ X) = "tid=".toList ++ X := by
  have e : "tid=".toList ++ X = 't' :: ("id=".toList ++ X) := rfl
  rw [e, skipWs_cons_of_not_ws _ _ (by decide)]

theorem skipWs_lit_pid (X : List Char) :
    skipWs ("pid=".toList ++ X) = "pid=".toList ++ X := by
  have e : "pid=".toList ++ X = 'p' :: ("id=".toList ++ X) := rfl
  rw [e, skipWs_cons_of_not_ws _ _ (by decide)]

theorem write_task_line_drop5 (t : Nat) (tid pid : Int) :
    (write_task_info_line t tid pid).drop 5 =
      "timestamp=".toList ++ (natToChars (t / NSEC_PER_SEC) ++
        ('.' :: (pad9 (natToChars (t % NSEC_PER_SEC)) ++
          (' ' :: ("tid=".toList ++ (intToChars tid ++
            (' ' :: ("pid=".toList ++ (intToChars pid ++
              ['\x0a'])))))))))
    := by
  have e1 : ∀ X : List Char, "TASK timestamp=".toList ++ X =
      'T' :: 'A' :: 'S' :: 'K' :: ' ' :: ("timestamp=".toList ++ X) :=
    fun _ => rfl
  have e2 : ∀ X : List Char, " tid=".toList ++ X =
      ' ' :: ("tid=".toList ++ X) := fun _ => rfl
  have e3 : ∀ X : List Char, " pid=".toList ++ X =
      ' ' :: ("pid=".toList ++ X) := fun _ => rfl
  simp only [write_task_info_line, snprint_timestamp, List.append_assoc,
    List.cons_append, e1, e2, e3, List.drop_succ_cons, List.drop_zero]

theorem parseTaskLine_roundtrip (t : Nat) (tid pid : Int) :
    parseTaskLine ((write_task_info_line t tid pid).drop 5) =
      some (t / NSEC_PER_SEC, t % NSEC_PER_SEC, tid, pid) := by
  rw [write_task_line_drop5]
  simp only [parseTaskLine, Option.bind_eq_bind]
  rw [expects_append]
  simp only [Option.some_bind]
  rw [skipWs_digits_append _ _ (natToChars_ne_nil _) (natToChars_digits _),
    parseNat_natToChars _ _ (by rfl)]
  simp only [Option.some_bind]
  rw [show expects ['.']
      ('.' :: (pad9 (natToChars (t % NSEC_PER_SEC)) ++
        (' ' :: ("tid=".toList ++ (intToChars tid ++
          (' ' :: ("pid=".toList ++ (intToChars pid ++ ['\x0a'])))))))) =
      some (pad9 (natToChars (t % NSEC_PER_SEC)) ++
        (' ' :: ("tid=".toList ++ (intToChars tid ++
          (' ' :: ("pid=".toList ++ (intToChars pid ++ ['\x0a'])))))))
    from rfl]
  simp only [Option.some_bind]
  rw [skipWs_digits_append _ _ (pad9_ne_nil _ (natToChars_ne_nil _))
      (pad9_digits _ (natToChars_digits _)),
    parseNat_pad9_natToChars _ _ (by rfl)]
  simp only [Option.some_bind]
  rw [skipWs_cons_of_ws _ _ (by decide), skipWs_lit_tid, expects_append]
  simp only [Option.some_bind]
  rw [parseInt_intToChars tid _ (by rfl)]
  simp only [Option.some_bind]
  rw [skipWs_cons_of_ws _ _ (by decide), skipWs_lit_pid, expects_append]
  simp only [Option.some_bind]
  rw [parseInt_intToChars pid _ (by rfl)]
  simp only [Option.some_bind]
  rfl

/-- C7: for every task message, appending it with `write_task_info`
(which renders the timestamp as `seconds.9-digit-nanoseconds`) and then
parsing the resulting TASK line with `read_task_txt_file` yields a
NewTask event whose tid, pid, and recomposed timestamp
(`sec*10^9 + nsec`) are identical to the originals. -/
theorem write_read_task_roundtrip (t : Nat) (tid pid : Int)
    (errnoVal : Nat) (ns sr : Bool) (init : ScanVars)
    (ht : t < 2 ^ 64)
    (htid1 : -(2 ^ 31) ≤ tid) (htid2 : tid < 2 ^ 31)
    (hpid1 : -(2 ^ 31) ≤ pid) (hpid2 : pid < 2 ^ 31) :
    parseTaskLine ((write_task_info_line t tid pid).drop 5) =
      some (t / NSEC_PER_SEC, t % NSEC_PER_SEC, tid, pid) ∧
    t / NSEC_PER_SEC * NSEC_PER_SEC + t % NSEC_PER_SEC = t ∧
    read_task_txt_file (some [write_task_info_line t tid pid]) errnoVal
        ns sr init =
      .ok (0, ⟨{ init with
                 sec := t / NSEC_PER_SEC
                 nsec := t % NSEC_PER_SEC
                 tmsgTid := tid
                 tmsgPid := pid }, [],
            [.createTask tid pid t false ns]⟩) := by
  have hdm : t / NSEC_PER_SEC * NSEC_PER_SEC + t % NSEC_PER_SEC = t := by
    rw [mul_comm]
    exact Nat.div_add_mod t NSEC_PER_SEC
  refine ⟨parseTaskLine_roundtrip t tid pid, hdm, ?_⟩
  have hTASK : (expects "TASK".toList
      (write_task_info_line t tid pid)).isSome = true := rfl
  simp only [read_task_txt_file, processLines, processLine, hTASK,
    if_true, parseTaskLine_roundtrip, hdm, List.nil_append]

/-- Witness for C7: the spec's example `timestamp=10.000000001 tid=5
pid=5` round-trips. -/
theorem write_read_task_roundtrip_witness :
    parseTaskLine ((write_task_info_line 10000000001 5 5).drop 5) =
      some (10000000001 / NSEC_PER_SEC, 10000000001 % NSEC_PER_SEC,
        (5 : Int), (5 : Int)) ∧
    10000000001 / NSEC_PER_SEC * NSEC_PER_SEC +
      10000000001 % NSEC_PER_SEC = 10000000001 ∧
    read_task_txt_file (some [write_task_info_line 10000000001 5 5]) 2
        true false zeroVars =
      .ok (0, ⟨{ zeroVars with
                 sec := 10000000001 / NSEC_PER_SEC
                 nsec := 10000000001 % NSEC_PER_SEC
                 tmsgTid := (5 : Int)
                 tmsgPid := (5 : Int) }, [],
            [.createTask 5 5 10000000001 false true]⟩) :=
  write_read_task_roundtrip 10000000001 5 5 2 true false zeroVars
    (by decide) (by decide) (by decide) (by decide) (by decide)

theorem sess_not_task_fork (line : List Char)
    (h : (expects "SESS".toList line).isSome = true) :
    (expects "TASK".toList line).isSome = false ∧
    (expects "FORK".toList line).isSome = false := by
  cases line with
  | nil => exact absurd h (by decide)
  | cons c rest =>
    by_cases hc : c = 'S'
    · subst hc
      exact ⟨rfl, rfl⟩
    · exfalso
      have hSc : ('S' == c) = false := by
        simp only [beq_eq_false_iff_ne, ne_eq]
        exact fun hh => hc hh.symm
      rw [show "SESS".toList = 'S' :: "ESS".toList from rfl] at h
      simp only [expects, hSc, Bool.false_eq_true, if_false] at h
      simp at h

/-- C8: when the text reader processes a DLOP line (with session
reconstruction requested), finding no session for the line's sid in
the registry makes the `assert` abort the process, and the assertion
holds exactly for DLOP lines whose sid matches a session in the
registry; the registry's sessions are created exactly by earlier SESS
lines (no other line kind changes the session set). -/
theorem dlop_missing_session_asserts (sr : Bool) (st : TxtState)
    (rest nm : List Char) (sec nsec : Nat) (tid : Int) (sid : List Char)
    (base : Nat)
    (hparse : parseDlopLine rest = some (sec, nsec, tid, sid, base))
    (hlib : extractName "libname=".toList ("DLOP ".toList ++ rest) =
      some nm) :
    (processLine true sr st ("DLOP ".toList ++ rest) = .error .assertFail
      ↔ st.sids.contains sid = false) ∧
    (st.sids.contains sid = true →
      processLine true sr st ("DLOP ".toList ++ rest) =
        .ok { st with
              vars := { st.vars with
                        sec := sec
                        nsec := nsec
                        dlopTid := tid
                        dlopSid := sid
                        dlopBase := base }
              evs := st.evs ++ [.addDlopen sid
                (sec * NSEC_PER_SEC + nsec) base nm] }) ∧
    (∀ ns st' line st2, processLine ns sr st' line = .ok st2 →
      (expects "SESS".toList line).isSome = false →
      st2.sids = st'.sids) ∧
    (∀ st' line st2, processLine true sr st' line = .ok st2 →
      (expects "SESS".toList line).isSome = true →
      st2.sids = st'.sids ++ [st2.vars.sessSid]) := by
  have hT : (expects "TASK".toList ("DLOP ".toList ++ rest)).isSome =
      false := rfl
  have hF : (expects "FORK".toList ("DLOP ".toList ++ rest)).isSome =
      false := rfl
  have hS : (expects "SESS".toList ("DLOP ".toList ++ rest)).isSome =
      false := rfl
  have hD : (expects "DLOP".toList ("DLOP ".toList ++ rest)).isSome =
      true := rfl
  have hdrop : ("DLOP ".toList ++ rest).drop 5 = rest := rfl
  refine ⟨?_, ?_, ?_, ?_⟩
  · simp only [processLine, hT, hF, hS, hD, Bool.false_eq_true, if_false,
      if_true, Bool.not_true, hdrop, hparse, hlib]
    cases hc : st.sids.contains sid with
    | false => simp [hc]
    | true => simp [hc]
  · intro hc
    simp only [processLine, hT, hF, hS, hD, Bool.false_eq_true, if_false,
      if_true, Bool.not_true, hdrop, hparse, hlib, hc]
  · intro ns st' line st2 h hsess
    simp only [processLine] at h
    split at h
    · rw [Except.ok.injEq] at h
      rw [← h]
    · split at h
      · rw [Except.ok.injEq] at h
        rw [← h]
      · split at h
        · rename_i hS'
          exact absurd hS' (by simp only [hsess]; simp)
        · split at h
          · split at h
            · rw [Except.ok.injEq] at h
              rw [← h]
            · split at h
              · exact absurd h (by simp)
              · split at h
                · rw [Except.ok.injEq] at h
                  rw [← h]
                · exact absurd h (by simp)
          · rw [Except.ok.injEq] at h
            rw [← h]
  · intro st' line st2 h hsess
    obtain ⟨hnt, hnf⟩ := sess_not_task_fork line hsess
    simp only [processLine, hnt, hnf, hsess, Bool.false_eq_true, if_false,
      if_true, Bool.not_true] at h
    split at h
    · exact absurd h (by simp)
    · rw [Except.ok.injEq] at h
      rw [← h]

/-- The payload of the concrete DLOP line used by the C8 witness. -/
def restC8 : List Char :=
  "timestamp=1.000000005 tid=3 sid=abc base=ff libname=\"l\"".toList ++
    ['\x0a']

/-- Witness for C8: on a concrete DLOP line, the assert aborts exactly
when the sid is absent from the registry, and attaches the dlopen when
it is present. -/
theorem dlop_missing_session_asserts_witness :
    (processLine true false ⟨zeroVars, [['a', 'b', 'c']], []⟩
        ("DLOP ".toList ++ restC8) = .error .assertFail ↔
      (List.contains [['a', 'b', 'c']] ['a', 'b', 'c']) = false) ∧
    (processLine true false ⟨zeroVars, [], []⟩
        ("DLOP ".toList ++ restC8) = .error .assertFail ↔
      (List.contains ([] : List (List Char)) ['a', 'b', 'c']) = false) :=
  ⟨(dlop_missing_session_asserts false ⟨zeroVars, [['a', 'b', 'c']], []⟩
      restC8 ['l'] 1 5 3 ['a', 'b', 'c'] 255 (by decide) (by decide)).1,
   (dlop_missing_session_asserts false ⟨zeroVars, [], []⟩
      restC8 ['l'] 1 5 3 ['a', 'b', 'c'] 255 (by decide) (by decide)).1⟩

end DataFile
